import Mathlib

/-!
DynamicMovementPrimitiveControllerClient: a shallow embedding of
`dmp/dynamic_movement_primitive_utilities/src/dynamic_movement_primitive_controller_client.cpp`.

The client owns a `std::map` from controller names to controller sessions
(`DynamicMovementPrimitiveControllerBaseClient`), a string `current_controller_` and a flag
`initialized_`.  The session class, the message types and the message constants live in headers
that are not part of the sources at hand: the session interface is a parameter (`BaseClient`),
the constants are parameters (`TypeMsg`, `DMPUtilitiesMsg`).

Every member function returns `none` when a `ROS_ASSERT` / `ROS_VERIFY` of the source fails and
`some outcome` otherwise; an outcome carries the returned boolean, the client afterwards and the
list of calls the function made (to `switchController` and to the sessions), in program order.
-/

namespace dmp_utilities

/-! ## Messages and constants -/

/-- The constants of `dynamic_movement_primitive::TypeMsg` that `sendCommand` compares the
message type with.  The generated header is not among the sources, so the three values are
parameters. -/
structure TypeMsg where
  DISCRETE_JOINT_SPACE : Int
  DISCRETE_CARTESIAN_SPACE : Int
  DISCRETE_CARTESIAN_AND_JOINT_SPACE : Int
  deriving DecidableEq, Repr

/-- The version strings of `dynamic_movement_primitive::DMPUtilitiesMsg` that the generic
`sendCommand` overload compares `getVersionString()` with.  The generated header is not among
the sources, so the two values are parameters. -/
structure DMPUtilitiesMsg where
  ICRA2009 : String
  NC2010 : String
  deriving DecidableEq, Repr

/-- A `dmp::ICRA2009DMPMsg`.  The client reads `msg.dmp.parameters.type` only; the remaining
fields are carried along uninterpreted. -/
structure ICRA2009DMPMsg where
  type : Int
  payload : List Int
  deriving DecidableEq, Repr

/-- A `dmp::NC2010DMPMsg`.  The client reads none of its fields. -/
structure NC2010DMPMsg where
  payload : List Int
  deriving DecidableEq, Repr

/-- What the client reads of a `dmp_lib::DMPPtr`: `isInitialized()`, `getVersionString()`, and
the rest of the object, which only `writeToMessage` looks at. -/
structure DMP where
  isInitialized : Bool
  versionString : String
  payload : List Int
  deriving DecidableEq, Repr

/-- The two `writeToMessage` conversions used by the generic `sendCommand` overload
(`ICRA2009DynamicMovementPrimitive::writeToMessage`,
`NC2010DynamicMovementPrimitive::writeToMessage`); they are defined outside the sources at hand.
Their boolean result is ignored by the caller, only the written message matters. -/
structure Conversions where
  icra2009 : DMP → ICRA2009DMPMsg
  nc2010 : DMP → NC2010DMPMsg

/-! ## Controller sessions -/

/-- The interface of `DynamicMovementPrimitiveControllerBaseClient<ICRA2009DMP, ICRA2009DMPMsg>`
as the client uses it, over an arbitrary type `σ` of session states.  `create` is the freshly
constructed object; every mutating member returns the session afterwards. -/
structure BaseClient (σ : Type) where
  create : σ
  init : σ → String → Bool × σ
  setSingleThreadedMode : σ → Bool → σ
  isActive : σ → Bool
  sendCommand : σ → ICRA2009DMPMsg → Int → Bool → Bool × σ
  getControllerStatus : σ → Bool × σ
  waitForCompletion : σ → Bool × σ

/-- A call made by a member function of the client: to its own `switchController`, or to a
member of the session registered under `name`. -/
inductive Call where
  | switchController (controller_name : String)
  | sessionInit (name : String) (qualified_name : String)
  | sessionSetSingleThreadedMode (name : String) (single_threaded_mode : Bool)
  | sessionIsActive (name : String)
  | sessionSendCommand (name : String) (msg : ICRA2009DMPMsg) (sequence_number : Int)
      (wait_for_success : Bool)
  | sessionGetControllerStatus (name : String)
  | sessionWaitForCompletion (name : String)
  deriving DecidableEq, Repr

/-- Is the call a `sendCommand` of some session? -/
def Call.isSend : Call → Bool
  | .sessionSendCommand _ _ _ _ => true
  | _ => false

/-- Is the call a call of a session member (anything but `switchController`)? -/
def Call.isSession : Call → Bool
  | .switchController _ => false
  | _ => true

/-- Is the call a call of `switchController`? -/
def Call.isSwitch : Call → Bool
  | .switchController _ => true
  | _ => false

/-! ## The controller map -/

/-- The `std::map<std::string, DMPControllerClientPtr>`, as the list of its entries in iteration
order. -/
abbrev ControllerMap (σ : Type) := List (String × σ)

/-- The keys of the map, in iteration order. -/
def ControllerMap.keys {σ : Type} (m : ControllerMap σ) : List String :=
  m.map Prod.fst

/-- The member `std::map::find`: the session stored under the key, `none` for `end()`. -/
def ControllerMap.find {σ : Type} : ControllerMap σ → String → Option σ
  | [], _ => none
  | (k, v) :: rest, key => if k = key then some v else ControllerMap.find rest key

/-- The member `std::map::insert`: nothing happens when the key is present, otherwise the entry
is placed in key order, the lexicographic order of `std::string` on the characters. -/
def ControllerMap.insert {σ : Type} : ControllerMap σ → String → σ → ControllerMap σ
  | [], key, v => [(key, v)]
  | (k, w) :: rest, key, v =>
    if k = key then (k, w) :: rest
    else if key.data < k.data then (key, v) :: (k, w) :: rest
    else (k, w) :: ControllerMap.insert rest key v

/-- The effect of calling a mutating member through the pointer `mi->second` found under the
key: the session stored under the key is replaced by the session afterwards. -/
def ControllerMap.store {σ : Type} : ControllerMap σ → String → σ → ControllerMap σ
  | [], _, _ => []
  | (k, w) :: rest, key, v =>
    if k = key then (k, v) :: rest else (k, w) :: ControllerMap.store rest key v

/-! ## The client -/

/-- The data members of `DynamicMovementPrimitiveControllerClient`. -/
structure Client (σ : Type) where
  initialized_ : Bool
  current_controller_ : String
  controller_names_ : List String
  icra2009_controller_clients_ : ControllerMap σ
  deriving DecidableEq, Repr

/-- What a member function leaves behind: the returned boolean, the client afterwards, and the
calls made, in program order. -/
structure Outcome (σ : Type) where
  ret : Bool
  state : Client σ
  calls : List Call
  deriving DecidableEq, Repr

/-- Modelled from the spec: the constructor is in the header
`dynamic_movement_primitive_controller_client.h`, which is not among the sources.  The spec's
data model says that Current Controller is "initialized to the sentinel", and operations before
`initialize` are "NotInitialized"; the map and the name list start empty. -/
def Client.new (σ : Type) : Client σ :=
  { initialized_ := false
    current_controller_ := "NoController"
    controller_names_ := []
    icra2009_controller_clients_ := [] }

/-- Modelled from the spec: the macro `ROS_VERIFY` is defined in `usc_utilities/assert.h`, which
is not among the sources.  The spec says of `initialize` that it "fails the whole operation (no
partial registry retained as valid) if any session fails to initialize or if the name list is
empty", and that violated pre-conditions are the one thing that ends the process: a check that
does not hold ends the operation there, without an outcome. -/
def ROS_VERIFY (cond : Bool) : Option Unit :=
  if cond then some () else none

/-- The loop of the vector overload of the member `initialize`, lines 46-51: for each name a
session is constructed and initialized under `controller_namespace + controller_names[i]`; the
result goes through the `ROS_VERIFY` of line 49, then the session is inserted in the map. -/
def initLoop {σ : Type} (B : BaseClient σ) (controller_namespace : String) :
    List String → ControllerMap σ → Option (ControllerMap σ × List Call)
  | [], m => some (m, [])
  | name :: rest, m =>
    let r := B.init B.create (controller_namespace ++ name)
    match ROS_VERIFY r.1 with
    | none => none
    | some _ =>
      match initLoop B controller_namespace rest (m.insert name r.2) with
      | none => none
      | some (m', cs) =>
        some (m', Call.sessionInit name (controller_namespace ++ name) :: cs)

/-- The member `initialize(const std::vector<std::string>&, const std::string)`, lines 40-54
(`initialize` is a reserved word here, hence the name).  Line 43 is the `ROS_VERIFY` that the
name list is not empty. -/
def initNames {σ : Type} (B : BaseClient σ) (s : Client σ) (controller_names : List String)
    (controller_namespace : String) : Option (Outcome σ) :=
  match ROS_VERIFY (!controller_names.isEmpty) with
  | none => none
  | some _ =>
    match initLoop B controller_namespace controller_names
        s.icra2009_controller_clients_ with
    | none => none
    | some (m, cs) =>
      some
        { ret := true
          state :=
            { initialized_ := true
              current_controller_ := s.current_controller_
              controller_names_ := controller_names
              icra2009_controller_clients_ := m }
          calls := cs }

/-- The member `initialize(const std::string&, const std::string)`, lines 32-38. -/
def initName {σ : Type} (B : BaseClient σ) (s : Client σ) (controller_name : String)
    (controller_namespace : String) : Option (Outcome σ) :=
  initNames B s [controller_name] controller_namespace

/-- The loop of `setSingleThreadedMode`, lines 59-62. -/
def setSingleThreadedModeLoop {σ : Type} (B : BaseClient σ) (single_threaded_mode : Bool) :
    ControllerMap σ → ControllerMap σ × List Call
  | [] => ([], [])
  | (k, v) :: rest =>
    let r := setSingleThreadedModeLoop B single_threaded_mode rest
    ((k, B.setSingleThreadedMode v single_threaded_mode) :: r.1,
      Call.sessionSetSingleThreadedMode k single_threaded_mode :: r.2)

/-- The member `setSingleThreadedMode`, lines 56-63; the function is `void`, the outcome
carries `true`. -/
def setSingleThreadedMode {σ : Type} (B : BaseClient σ) (s : Client σ)
    (single_threaded_mode : Bool) : Option (Outcome σ) :=
  if s.initialized_ then
    let r := setSingleThreadedModeLoop B single_threaded_mode s.icra2009_controller_clients_
    some
      { ret := true
        state := { s with icra2009_controller_clients_ := r.1 }
        calls := r.2 }
  else none

/-- The loop of `isActive`, lines 158-166: the sessions are asked in iteration order and the
first active one ends the loop with `true`. -/
def isActiveLoop {σ : Type} (B : BaseClient σ) : ControllerMap σ → Bool × List Call
  | [] => (false, [])
  | (k, v) :: rest =>
    if B.isActive v then (true, [Call.sessionIsActive k])
    else
      let r := isActiveLoop B rest
      (r.1, Call.sessionIsActive k :: r.2)

/-- The member `isActive`, lines 155-167. -/
def isActive {σ : Type} (B : BaseClient σ) (s : Client σ) : Option (Outcome σ) :=
  if s.initialized_ then
    let r := isActiveLoop B s.icra2009_controller_clients_
    some { ret := r.1, state := s, calls := r.2 }
  else none

/-- The member `switchController`, lines 65-79.  The condition of line 71 is evaluated left to
right with short circuit, so `isActive()` is called only when the current controller differs
from both the requested name and `"NoController"`. -/
def switchController {σ : Type} (B : BaseClient σ) (s : Client σ) (controller_name : String) :
    Option (Outcome σ) :=
  if s.initialized_ then
    if s.current_controller_ ≠ controller_name ∧ s.current_controller_ ≠ "NoController" then
      match isActive B s with
      | none => none
      | some a =>
        if a.ret then
          some
            { ret := false
              state := a.state
              calls := Call.switchController controller_name :: a.calls }
        else
          some
            { ret := true
              state := { a.state with current_controller_ := controller_name }
              calls := Call.switchController controller_name :: a.calls }
    else
      some
        { ret := true
          state := { s with current_controller_ := controller_name }
          calls := [Call.switchController controller_name] }
  else none

/-- The member `sendCommand(const dmp::ICRA2009DMPMsg&, ...)`, lines 81-116. -/
def sendCommand {σ : Type} (K : TypeMsg) (B : BaseClient σ) (s : Client σ)
    (msg : ICRA2009DMPMsg) (controller_name : String) (sequence_number : Int)
    (wait_for_success : Bool) : Option (Outcome σ) :=
  if s.initialized_ then
    let dmp_msg := msg
    if msg.type = K.DISCRETE_JOINT_SPACE ∨ msg.type = K.DISCRETE_CARTESIAN_SPACE
        ∨ msg.type = K.DISCRETE_CARTESIAN_AND_JOINT_SPACE then
      match switchController B s controller_name with
      | none => none
      | some sw =>
        if sw.ret then
          match sw.state.icra2009_controller_clients_.find controller_name with
          | none => some { ret := false, state := sw.state, calls := sw.calls }
          | some session =>
            let r := B.sendCommand session dmp_msg sequence_number wait_for_success
            some
              { ret := r.1
                state :=
                  { sw.state with
                    icra2009_controller_clients_ :=
                      sw.state.icra2009_controller_clients_.store controller_name r.2 }
                calls :=
                  sw.calls ++
                    [Call.sessionSendCommand controller_name dmp_msg sequence_number
                      wait_for_success] }
        else some { ret := false, state := sw.state, calls := sw.calls }
    else some { ret := false, state := s, calls := [] }
  else none

/-- The member `sendCommand(const dmp::NC2010DMPMsg&, ...)`, lines 118-125: no assertion, an
error message, `false`. -/
def sendCommandNC2010 {σ : Type} (s : Client σ) (_msg : NC2010DMPMsg)
    (_controller_name : String) (_sequence_number : Int) (_wait_for_success : Bool) :
    Option (Outcome σ) :=
  some { ret := false, state := s, calls := [] }

/-- The member `sendCommand(const dmp_lib::DMPPtr&, ...)`, lines 127-153. -/
def sendCommandDMP {σ : Type} (K : TypeMsg) (V : DMPUtilitiesMsg) (W : Conversions)
    (B : BaseClient σ) (s : Client σ) (dmp : DMP) (controller_name : String)
    (sequence_number : Int) (wait_for_success : Bool) : Option (Outcome σ) :=
  if s.initialized_ then
    if dmp.isInitialized then
      if dmp.versionString = V.ICRA2009 then
        sendCommand K B s (W.icra2009 dmp) controller_name sequence_number wait_for_success
      else if dmp.versionString = V.NC2010 then
        sendCommandNC2010 s (W.nc2010 dmp) controller_name sequence_number wait_for_success
      else some { ret := false, state := s, calls := [] }
    else none
  else none

/-- The member `getControllerStatus`, lines 169-180.  The status record written through the
reference parameter is part of the session's answer and is not modelled. -/
def getControllerStatus {σ : Type} (B : BaseClient σ) (s : Client σ) : Option (Outcome σ) :=
  if s.initialized_ then
    match s.icra2009_controller_clients_.find s.current_controller_ with
    | none => some { ret := false, state := s, calls := [] }
    | some session =>
      let r := B.getControllerStatus session
      some
        { ret := r.1
          state :=
            { s with
              icra2009_controller_clients_ :=
                s.icra2009_controller_clients_.store s.current_controller_ r.2 }
          calls := [Call.sessionGetControllerStatus s.current_controller_] }
  else none

/-- The member `waitForCompletion`, lines 182-192. -/
def waitForCompletion {σ : Type} (B : BaseClient σ) (s : Client σ) : Option (Outcome σ) :=
  if s.initialized_ then
    match s.icra2009_controller_clients_.find s.current_controller_ with
    | none => some { ret := false, state := s, calls := [] }
    | some session =>
      let r := B.waitForCompletion session
      some
        { ret := r.1
          state :=
            { s with
              icra2009_controller_clients_ :=
                s.icra2009_controller_clients_.store s.current_controller_ r.2 }
          calls := [Call.sessionWaitForCompletion s.current_controller_] }
  else none

/-! ## Sequences of operations -/

/-- The public operations of the client after `initialize`, with their arguments, and one more
step, `sessionsEvolve`: the sessions belong to controllers that run on their own, so between two
calls of the client each session may change its state (a trajectory ends, say). -/
inductive Op (σ : Type) where
  | switchController (controller_name : String)
  | sendCommand (msg : ICRA2009DMPMsg) (controller_name : String) (sequence_number : Int)
      (wait_for_success : Bool)
  | sendCommandNC2010 (msg : NC2010DMPMsg) (controller_name : String) (sequence_number : Int)
      (wait_for_success : Bool)
  | sendCommandDMP (dmp : DMP) (controller_name : String) (sequence_number : Int)
      (wait_for_success : Bool)
  | isActive
  | getControllerStatus
  | waitForCompletion
  | setSingleThreadedMode (single_threaded_mode : Bool)
  | sessionsEvolve (f : String → σ → σ)

/-- The controller name an operation is called with, when it takes one. -/
def Op.target {σ : Type} : Op σ → Option String
  | .switchController n => some n
  | .sendCommand _ n _ _ => some n
  | .sendCommandNC2010 _ n _ _ => some n
  | .sendCommandDMP _ n _ _ => some n
  | _ => none

/-- The sessions change on their own: keys and order stay, each session moves to `f key session`. -/
def ControllerMap.evolve {σ : Type} (f : String → σ → σ) : ControllerMap σ → ControllerMap σ
  | [] => []
  | (k, v) :: rest => (k, f k v) :: ControllerMap.evolve f rest

/-- One operation on the client. -/
def Op.apply {σ : Type} (K : TypeMsg) (V : DMPUtilitiesMsg) (W : Conversions)
    (B : BaseClient σ) (s : Client σ) : Op σ → Option (Outcome σ)
  | .switchController n => dmp_utilities.switchController B s n
  | .sendCommand msg n seq wait => dmp_utilities.sendCommand K B s msg n seq wait
  | .sendCommandNC2010 msg n seq wait => dmp_utilities.sendCommandNC2010 s msg n seq wait
  | .sendCommandDMP dmp n seq wait => dmp_utilities.sendCommandDMP K V W B s dmp n seq wait
  | .isActive => dmp_utilities.isActive B s
  | .getControllerStatus => dmp_utilities.getControllerStatus B s
  | .waitForCompletion => dmp_utilities.waitForCompletion B s
  | .setSingleThreadedMode b => dmp_utilities.setSingleThreadedMode B s b
  | .sessionsEvolve f =>
    some
      { ret := true
        state :=
          { s with icra2009_controller_clients_ := s.icra2009_controller_clients_.evolve f }
        calls := [] }

/-- A sequence of operations, one after the other; `none` as soon as an assertion fails. -/
def run {σ : Type} (K : TypeMsg) (V : DMPUtilitiesMsg) (W : Conversions) (B : BaseClient σ) :
    List (Op σ) → Client σ → Option (Client σ)
  | [], s => some s
  | op :: rest, s =>
    match op.apply K V W B s with
    | none => none
    | some o => run K V W B rest o.state

/-- Current Controller is valid: the sentinel, or a key of the controller map. -/
def Client.currentValid {σ : Type} (s : Client σ) : Prop :=
  s.current_controller_ = "NoController"
    ∨ s.current_controller_ ∈ s.icra2009_controller_clients_.keys

instance {σ : Type} (s : Client σ) : Decidable s.currentValid :=
  inferInstanceAs
    (Decidable
      (s.current_controller_ = "NoController"
        ∨ s.current_controller_ ∈ s.icra2009_controller_clients_.keys))

/-! ## A test double for the sessions -/

/-- The state of the test double: whether a trajectory is executing, and the qualified name the
session was initialized under. -/
structure TestSession where
  active : Bool
  qualified_name : String
  deriving DecidableEq, Repr

/-- A session test double: `initialize` succeeds and records the qualified name, `sendCommand`
succeeds and starts a trajectory, `waitForCompletion` succeeds and ends it. -/
def testBaseClient : BaseClient TestSession :=
  { create := { active := false, qualified_name := "" }
    init := fun s n => (true, { s with qualified_name := n })
    setSingleThreadedMode := fun s _ => s
    isActive := fun s => s.active
    sendCommand := fun s _ _ _ => (true, { s with active := true })
    getControllerStatus := fun s => (true, s)
    waitForCompletion := fun s => (true, { s with active := false }) }

/-- A session test double like `testBaseClient`, except that `initialize` fails under the
qualified name `bad`. -/
def testFailingBaseClient (bad : String) : BaseClient TestSession :=
  { testBaseClient with
    init := fun s n => (decide (n ≠ bad), { s with qualified_name := n }) }

/-- Message type constants for the examples. -/
def testTypeMsg : TypeMsg :=
  { DISCRETE_JOINT_SPACE := 1
    DISCRETE_CARTESIAN_SPACE := 2
    DISCRETE_CARTESIAN_AND_JOINT_SPACE := 3 }

/-- Version strings for the examples. -/
def testVersions : DMPUtilitiesMsg :=
  { ICRA2009 := "ICRA2009", NC2010 := "NC2010" }

/-- Conversions for the examples: the payload is copied, an ICRA2009 message is joint space. -/
def testConversions : Conversions :=
  { icra2009 := fun d => { type := 1, payload := d.payload }
    nc2010 := fun d => { payload := d.payload } }

/-- A joint-space command for the examples. -/
def testJointMsg : ICRA2009DMPMsg :=
  { type := 1, payload := [] }

/-- An initialized client over the test double with the given Current Controller and the two
sessions `"A"` and `"B"` with the given activity. -/
def testClient (current : String) (activeA activeB : Bool) : Client TestSession :=
  { initialized_ := true
    current_controller_ := current
    controller_names_ := ["A", "B"]
    icra2009_controller_clients_ :=
      [("A", { active := activeA, qualified_name := "/A" }),
        ("B", { active := activeB, qualified_name := "/B" })] }

/-- Stray activity for the examples: the controller `name` starts a trajectory that this client
did not send (the sessions belong to controllers that other parties can command as well). -/
def strayStart (name : String) : String → TestSession → TestSession :=
  fun k session => if k = name then { session with active := true } else session

/-- An initialized client over the test double in which one of the two controllers is itself
named `"NoController"`: the current controller is that name, the sessions `"B"` and
`"NoController"` have the given activity. -/
def testClientSentinelNamed (activeB activeN : Bool) : Client TestSession :=
  { initialized_ := true
    current_controller_ := "NoController"
    controller_names_ := ["NoController", "B"]
    icra2009_controller_clients_ :=
      [("B", { active := activeB, qualified_name := "/B" }),
        ("NoController", { active := activeN, qualified_name := "/NoController" })] }

end dmp_utilities

/-!
Data_loader: a shallow embedding of `Data_loader::Load_trial_log` of
`grasp_template_planning/src/deep_learning/data_loader.cpp`.

The message types, the bag reader, the template constructor with its mask and the heightmap
sampling are declared outside that file: the messages are records of the fields the function
reads, the other collaborators are parameters (`Collaborators`).  Indexing the three-slot table
out of its bounds and reading through a null slot have no defined result in the source; the
embedding returns `none` there.
-/

namespace Data_loader

/-- A `geometry_msgs::Point`.  The function copies the coordinates and never computes with
them; they are rationals here. -/
structure Point where
  x : ℚ
  y : ℚ
  z : ℚ
  deriving DecidableEq

/-- A `geometry_msgs::Quaternion`. -/
structure Quaternion where
  x : ℚ
  y : ℚ
  z : ℚ
  w : ℚ
  deriving DecidableEq

/-- A `geometry_msgs::Pose`. -/
structure Pose where
  position : Point
  orientation : Quaternion
  deriving DecidableEq

/-- A `grasp_template::GraspTemplate`, uninterpreted. -/
structure GraspTemplate where
  data : List Int
  deriving DecidableEq

/-- The fields of a `grasp_template_planning::GraspAnalysis` that `Load_trial_log` reads; the
stamped poses are given by their `pose`.  `grasp_success` is a `float`: the function assigns
`0.0` to it and compares it with `0.0` and `1.0`, nothing else, so a rational stands for it. -/
structure GraspAnalysis where
  grasp_success : ℚ
  uuid : String
  grasp_template : List Int
  template_pose : Pose
  gripper_pose : Pose
  viewpoint_transform : Pose
  deriving DecidableEq

/-- The fields of a `grasp_template_planning::GraspLog` that `Load_trial_log` reads; `seq` is
the value of line 65, `const int seq_nr = grasp_trial_log[i].seq`. -/
structure GraspLog where
  seq : Int
  target_object : List Int
  applied_grasp : GraspAnalysis
  matched_grasp : GraspAnalysis
  table_frame : Pose
  deriving DecidableEq

/-- The collaborators of `Load_trial_log`:
`readFromBagFile` gives the messages of the topic in the bag, in bag order (line 54);
`appliedTemplate` is the template built and masked at lines 76-81;
`iteratorReady` is the first test `!it.passedLast() && ros::ok()` of the loop of line 167, for
the sampling set up from the object cloud and the message of slot 1;
`randomTemplates` is what `generateTemplateOnHull` and `Get_random_grasp_templates` produce in
the one pass of that loop (lines 173-183). -/
structure Collaborators where
  readFromBagFile : String → String → List GraspLog
  appliedTemplate : GraspAnalysis → GraspTemplate
  iteratorReady : List Int → GraspLog → Bool
  randomTemplates : List Int → GraspLog → List GraspTemplate

/-- The table `grasp_trial_log_sorted`: pointers into the log, `none` for a null pointer. -/
abbrev SortedTable := List (Option GraspLog)

/-- Line 66, `grasp_trial_log_sorted[seq_nr] = &(grasp_trial_log[i])`: the write is defined
when `seq_nr`, as an index, lies within the table. -/
def sortedWrite (tbl : SortedTable) (seq_nr : Int) (msg : GraspLog) : Option SortedTable :=
  if 0 ≤ seq_nr ∧ seq_nr < tbl.length then some (tbl.set seq_nr.toNat (some msg)) else none

/-- The loop of lines 64-68 over the messages in bag order. -/
def sortLoop : List GraspLog → SortedTable → Option SortedTable
  | [], tbl => some tbl
  | msg :: rest, tbl =>
    match sortedWrite tbl msg.seq msg with
    | none => none
    | some tbl' => sortLoop rest tbl'

/-- A read `grasp_trial_log_sorted[i]->...`: defined when the slot exists and is not null. -/
def sortedRead (tbl : SortedTable) (i : Nat) : Option GraspLog :=
  match tbl.get? i with
  | some (some msg) => some msg
  | _ => none

/-- The condition of lines 73-74, `(grasp_applied.grasp_success = 0.0) ||
(grasp_applied.grasp_success == 1.0)`: the left operand assigns `0.0` and has the assigned
value, which is tested against zero; the right operand compares the field with `1.0`.  The
result is the value of the condition and the record after the assignment. -/
def appliedGraspTest (grasp_applied : GraspAnalysis) : Bool × GraspAnalysis :=
  let assigned : GraspAnalysis := { grasp_applied with grasp_success := 0 }
  (decide (assigned.grasp_success ≠ 0) || decide (assigned.grasp_success = 1), assigned)

/-- The three result vectors. -/
structure ResultVectors where
  result_template : List GraspTemplate
  result_uuid : List String
  result_success : List ℚ
  deriving DecidableEq

/-- The loop of lines 184-188: one push on each vector per random template. -/
def pushRandomTemplates : List GraspTemplate → ResultVectors → ResultVectors
  | [], r => r
  | t :: rest, r =>
    pushRandomTemplates rest
      { result_template := r.result_template ++ [t]
        result_uuid := r.result_uuid ++ ["__NONE__"]
        result_success := r.result_success ++ [-1] }

/-- What `Load_trial_log` returns and writes through its reference parameters. -/
structure TrialLog where
  ret : Bool
  vectors : ResultVectors
  result_object_cloud : List Int
  result_view_point : Pose
  deriving DecidableEq

/-- The member `Data_loader::Load_trial_log`, lines 39-201. -/
def Load_trial_log (E : Collaborators) (_log_topic : String) (path_bagfile : String) :
    Option TrialLog :=
  let cleared : ResultVectors := { result_template := [], result_uuid := [], result_success := [] }
  let grasp_trial_log := E.readFromBagFile _log_topic path_bagfile
  match sortLoop grasp_trial_log [none, none, none] with
  | none => none
  | some grasp_trial_log_sorted =>
    match sortedRead grasp_trial_log_sorted 1 with
    | none => none
    | some slot1 =>
      let test := appliedGraspTest slot1.applied_grasp
      let after_applied : ResultVectors :=
        if test.1 then
          { result_template := cleared.result_template ++ [E.appliedTemplate test.2]
            result_uuid := cleared.result_uuid ++ [test.2.uuid]
            result_success := cleared.result_success ++ [test.2.grasp_success] }
        else cleared
      match sortedRead grasp_trial_log_sorted 0 with
      | none => none
      | some slot0 =>
        let result_object_cloud := slot0.target_object
        let grasp_applied := slot1.applied_grasp
        let vp := grasp_applied.viewpoint_transform.position
        let vo := grasp_applied.viewpoint_transform.orientation
        let result_view_point : Pose :=
          { position := { x := vp.x, y := vp.y, z := vp.z }
            orientation := { x := vo.x, y := vo.y, z := vo.z, w := vo.w } }
        let vectors :=
          if E.iteratorReady result_object_cloud slot1 then
            pushRandomTemplates (E.randomTemplates result_object_cloud slot1) after_applied
          else after_applied
        some
          { ret := true
            vectors := vectors
            result_object_cloud := result_object_cloud
            result_view_point := result_view_point }

/-- The last message of the log, in bag order, whose `seq` is `i`. -/
def lastWithSeq (log : List GraspLog) (i : Int) : Option GraspLog :=
  (log.filter (fun msg => decide (msg.seq = i))).getLast?

/-- The precondition on a trial log: every `seq` is 0, 1 or 2, some message has `seq` 0 and
some message has `seq` 1. -/
def WellFormedLog (log : List GraspLog) : Prop :=
  (∀ msg ∈ log, msg.seq = 0 ∨ msg.seq = 1 ∨ msg.seq = 2)
    ∧ (∃ msg ∈ log, msg.seq = 0) ∧ (∃ msg ∈ log, msg.seq = 1)

/-- The vectors have one length and hold placeholders only: every identifier is `"__NONE__"`
and every success value is `-1.0`. -/
def OnlyPlaceholders (r : ResultVectors) : Prop :=
  r.result_template.length = r.result_uuid.length
    ∧ r.result_uuid.length = r.result_success.length
    ∧ (∀ u ∈ r.result_uuid, u = "__NONE__")
    ∧ ∀ x ∈ r.result_success, x = -1

/-! ### A trial log for the examples -/

/-- The pose with all coordinates zero. -/
def testPose : Pose :=
  { position := { x := 0, y := 0, z := 0 }, orientation := { x := 0, y := 0, z := 0, w := 1 } }

/-- A grasp analysis with the given success value and identifier. -/
def testGrasp (grasp_success : ℚ) (uuid : String) : GraspAnalysis :=
  { grasp_success := grasp_success
    uuid := uuid
    grasp_template := []
    template_pose := testPose
    gripper_pose := testPose
    viewpoint_transform := testPose }

/-- A log message with the given `seq`, cloud and success value of the applied grasp. -/
def testMsg (seq : Int) (cloud : List Int) (grasp_success : ℚ) : GraspLog :=
  { seq := seq
    target_object := cloud
    applied_grasp := testGrasp grasp_success "applied"
    matched_grasp := testGrasp 1 "matched"
    table_frame := testPose }

/-- A bag whose three parts come out of order, with a second copy of part 1; the applied grasp
of the last part 1 has `grasp_success` 1.0. -/
def testLog : List GraspLog :=
  [testMsg 1 [] 0, testMsg 2 [] 0, testMsg 0 [7] 0, testMsg 1 [] 1]

/-- Collaborators for the examples: the bag holds `testLog`, the sampling is ready and yields
two templates. -/
def testCollaborators : Collaborators :=
  { readFromBagFile := fun _ _ => testLog
    appliedTemplate := fun _ => { data := [0] }
    iteratorReady := fun _ _ => true
    randomTemplates := fun _ _ => [{ data := [1] }, { data := [2] }] }

end Data_loader

namespace dmp_utilities

/-! ## Facts about the controller map and the loops -/

theorem ControllerMap.find_some_mem {σ : Type} (m : ControllerMap σ) (key : String) (v : σ)
    (h : m.find key = some v) : (key, v) ∈ m := by
  induction m with
  | nil => simp [ControllerMap.find] at h
  | cons e rest ih =>
    obtain ⟨k, w⟩ := e
    unfold ControllerMap.find at h
    by_cases hk : k = key
    · simp [hk] at h
      simp [hk, h]
    · simp [hk] at h
      exact List.mem_cons_of_mem _ (ih h)

theorem ControllerMap.find_none_iff {σ : Type} (m : ControllerMap σ) (key : String) :
    m.find key = none ↔ key ∉ m.keys := by
  induction m with
  | nil => simp [ControllerMap.find, ControllerMap.keys]
  | cons e rest ih =>
    obtain ⟨k, w⟩ := e
    unfold ControllerMap.find
    by_cases hk : k = key
    · simp [hk, ControllerMap.keys]
    · have hk' : ¬ key = k := fun h => hk h.symm
      simp only [ControllerMap.keys] at ih
      simp [hk, hk', ControllerMap.keys, ih]

theorem ControllerMap.keys_store {σ : Type} (m : ControllerMap σ) (key : String) (v : σ) :
    (m.store key v).keys = m.keys := by
  induction m with
  | nil => rfl
  | cons e rest ih =>
    obtain ⟨k, w⟩ := e
    unfold ControllerMap.store
    by_cases hk : k = key
    · simp [hk, ControllerMap.keys]
    · simp only [ControllerMap.keys] at ih
      simp [hk, ControllerMap.keys, ih]

theorem ControllerMap.keys_evolve {σ : Type} (f : String → σ → σ) (m : ControllerMap σ) :
    (m.evolve f).keys = m.keys := by
  induction m with
  | nil => rfl
  | cons e rest ih =>
    obtain ⟨k, w⟩ := e
    simp only [ControllerMap.keys] at ih
    simp [ControllerMap.evolve, ControllerMap.keys, ih]

theorem setSingleThreadedModeLoop_keys {σ : Type} (B : BaseClient σ) (b : Bool)
    (m : ControllerMap σ) : (setSingleThreadedModeLoop B b m).1.keys = m.keys := by
  induction m with
  | nil => rfl
  | cons e rest ih =>
    obtain ⟨k, w⟩ := e
    simp only [ControllerMap.keys] at ih
    simp [setSingleThreadedModeLoop, ControllerMap.keys, ih]

/-- The loop of `isActive` answers `true` exactly when some session in the map reports active. -/
theorem isActiveLoop_ret {σ : Type} (B : BaseClient σ) (m : ControllerMap σ) :
    (isActiveLoop B m).1 = true ↔ ∃ e ∈ m, B.isActive e.2 = true := by
  induction m with
  | nil => simp [isActiveLoop]
  | cons e rest ih =>
    obtain ⟨k, w⟩ := e
    unfold isActiveLoop
    by_cases hw : B.isActive w = true
    · simp [hw]
    · simp [hw, ih]

/-- The loop of `isActive` calls nothing but the `isActive` of sessions. -/
theorem isActiveLoop_calls {σ : Type} (B : BaseClient σ) (m : ControllerMap σ) :
    ∀ c ∈ (isActiveLoop B m).2, ∃ k, c = Call.sessionIsActive k := by
  induction m with
  | nil => simp [isActiveLoop]
  | cons e rest ih =>
    obtain ⟨k, w⟩ := e
    unfold isActiveLoop
    by_cases hw : B.isActive w = true
    · simp [hw]
    · intro c hc
      simp [hw] at hc
      rcases hc with hc | hc
      · exact ⟨k, hc⟩
      · exact ih c hc

theorem isActiveLoop_calls_not_send {σ : Type} (B : BaseClient σ) (m : ControllerMap σ) :
    ∀ c ∈ (isActiveLoop B m).2, c.isSend = false ∧ c.isSwitch = false := by
  intro c hc
  obtain ⟨k, rfl⟩ := isActiveLoop_calls B m c hc
  exact ⟨rfl, rfl⟩

/-- The three ways `switchController` ends on an initialized client. -/
theorem switchController_eq {σ : Type} (B : BaseClient σ) (s : Client σ) (t : String)
    (hinit : s.initialized_ = true) :
    switchController B s t =
      some
        (if s.current_controller_ ≠ t ∧ s.current_controller_ ≠ "NoController" then
          if (isActiveLoop B s.icra2009_controller_clients_).1 = true then
            { ret := false
              state := s
              calls :=
                Call.switchController t :: (isActiveLoop B s.icra2009_controller_clients_).2 }
          else
            { ret := true
              state := { s with current_controller_ := t }
              calls :=
                Call.switchController t :: (isActiveLoop B s.icra2009_controller_clients_).2 }
        else
          { ret := true
            state := { s with current_controller_ := t }
            calls := [Call.switchController t] }) := by
  unfold switchController isActive
  simp only [hinit, if_true]
  by_cases hc : s.current_controller_ ≠ t ∧ s.current_controller_ ≠ "NoController"
  · rw [if_pos hc, if_pos hc]
    by_cases ha : (isActiveLoop B s.icra2009_controller_clients_).1 = true
    · simp [ha]
    · simp [ha]
  · rw [if_neg hc, if_neg hc]

/-! ## The claims -/

/-- C1. The decision rule of `switchController`: on an initialized client it returns, and it
returns `false` exactly when the current controller is neither `"NoController"` nor the
requested name and at least one registered session reports active; whenever it returns `true`
the current controller is the requested name afterwards. -/
theorem switchController_decision_rule {σ : Type} (B : BaseClient σ) (s : Client σ)
    (t : String) (hinit : s.initialized_ = true) :
    ∃ o, switchController B s t = some o
      ∧ (o.ret = false ↔
          (s.current_controller_ ≠ "NoController" ∧ s.current_controller_ ≠ t)
            ∧ ∃ e ∈ s.icra2009_controller_clients_, B.isActive e.2 = true)
      ∧ (o.ret = true → o.state.current_controller_ = t) := by
  refine ⟨_, switchController_eq B s t hinit, ?_, ?_⟩
  · by_cases hc : s.current_controller_ ≠ t ∧ s.current_controller_ ≠ "NoController"
    · rw [if_pos hc]
      by_cases ha : (isActiveLoop B s.icra2009_controller_clients_).1 = true
      · rw [if_pos ha]
        have := (isActiveLoop_ret B _).1 ha
        simp [hc.1, hc.2, this]
      · rw [if_neg ha]
        have hn : ¬ ∃ e ∈ s.icra2009_controller_clients_, B.isActive e.2 = true :=
          fun h => ha ((isActiveLoop_ret B _).2 h)
        simp [hn]
    · rw [if_neg hc]
      have : ¬ (s.current_controller_ ≠ "NoController" ∧ s.current_controller_ ≠ t) :=
        fun h => hc ⟨h.2, h.1⟩
      simp [this]
  · by_cases hc : s.current_controller_ ≠ t ∧ s.current_controller_ ≠ "NoController"
    · rw [if_pos hc]
      by_cases ha : (isActiveLoop B s.icra2009_controller_clients_).1 = true
      · rw [if_pos ha]; simp
      · rw [if_neg ha]; simp
    · rw [if_neg hc]; simp

/-- C1, at an instance: the current controller is `"A"`, session `"A"` is active, the requested
name is `"B"`. -/
theorem switchController_decision_rule_witness :
    ∃ o, switchController testBaseClient (testClient "A" true false) "B" = some o
      ∧ (o.ret = false ↔
          ((testClient "A" true false).current_controller_ ≠ "NoController"
              ∧ (testClient "A" true false).current_controller_ ≠ "B")
            ∧ ∃ e ∈ (testClient "A" true false).icra2009_controller_clients_,
                testBaseClient.isActive e.2 = true)
      ∧ (o.ret = true → o.state.current_controller_ = "B") :=
  switchController_decision_rule testBaseClient (testClient "A" true false) "B" (by decide)

/-- A switch away from a current controller that is neither the sentinel nor the requested name
is denied while some session is active: `false`, the client as before, only `isActive` calls. -/
theorem switchController_denied {σ : Type} (B : BaseClient σ) (s : Client σ) (t : String)
    (hinit : s.initialized_ = true) (hsent : s.current_controller_ ≠ "NoController")
    (hne : s.current_controller_ ≠ t)
    (hact : ∃ e ∈ s.icra2009_controller_clients_, B.isActive e.2 = true) :
    switchController B s t =
      some
        { ret := false
          state := s
          calls :=
            Call.switchController t :: (isActiveLoop B s.icra2009_controller_clients_).2 } := by
  rw [switchController_eq B s t hinit, if_pos ⟨hne, hsent⟩,
    if_pos ((isActiveLoop_ret B _).2 hact)]

/-- A switch that is not denied: `true`, the requested name recorded, no session send. -/
theorem switchController_allowed {σ : Type} (B : BaseClient σ) (s : Client σ) (t : String)
    (hinit : s.initialized_ = true)
    (hok : ¬ ((s.current_controller_ ≠ "NoController" ∧ s.current_controller_ ≠ t)
      ∧ ∃ e ∈ s.icra2009_controller_clients_, B.isActive e.2 = true)) :
    ∃ cs, switchController B s t =
        some
          { ret := true
            state := { s with current_controller_ := t }
            calls := Call.switchController t :: cs }
      ∧ ∀ c ∈ cs, c.isSend = false ∧ c.isSwitch = false := by
  rw [switchController_eq B s t hinit]
  by_cases hc : s.current_controller_ ≠ t ∧ s.current_controller_ ≠ "NoController"
  · have ha : ¬ (isActiveLoop B s.icra2009_controller_clients_).1 = true :=
      fun h => hok ⟨⟨hc.2, hc.1⟩, (isActiveLoop_ret B _).1 h⟩
    rw [if_pos hc, if_neg ha]
    exact ⟨_, rfl, isActiveLoop_calls_not_send B _⟩
  · rw [if_neg hc]
    exact ⟨[], rfl, by simp⟩

/-- A send that meets a denied switch: `false`, the client as before, and the calls are the
switch and its `isActive` queries (or none at all when the message type is not routable). -/
theorem sendCommand_denied {σ : Type} (K : TypeMsg) (B : BaseClient σ) (s : Client σ)
    (msg : ICRA2009DMPMsg) (t : String) (seq : Int) (wait : Bool)
    (hinit : s.initialized_ = true) (hsent : s.current_controller_ ≠ "NoController")
    (hne : s.current_controller_ ≠ t)
    (hact : ∃ e ∈ s.icra2009_controller_clients_, B.isActive e.2 = true) :
    ∃ cs, sendCommand K B s msg t seq wait = some { ret := false, state := s, calls := cs }
      ∧ ∀ c ∈ cs, c.isSend = false := by
  unfold sendCommand
  simp only [hinit, if_true]
  by_cases hr : msg.type = K.DISCRETE_JOINT_SPACE ∨ msg.type = K.DISCRETE_CARTESIAN_SPACE
      ∨ msg.type = K.DISCRETE_CARTESIAN_AND_JOINT_SPACE
  · rw [if_pos hr, switchController_denied B s t hinit hsent hne hact]
    refine ⟨_, rfl, ?_⟩
    intro c hc
    rcases List.mem_cons.1 hc with hc | hc
    · rw [hc]; rfl
    · exact (isActiveLoop_calls_not_send B _ c hc).1
  · rw [if_neg hr]
    exact ⟨[], rfl, by simp⟩

/-- A send that meets an allowed switch and a registered name: the session found under the name
receives the command, its result is returned, and the requested name is recorded. -/
theorem sendCommand_forwarded {σ : Type} (K : TypeMsg) (B : BaseClient σ) (s : Client σ)
    (msg : ICRA2009DMPMsg) (t : String) (seq : Int) (wait : Bool) (session : σ)
    (hinit : s.initialized_ = true)
    (hr : msg.type = K.DISCRETE_JOINT_SPACE ∨ msg.type = K.DISCRETE_CARTESIAN_SPACE
      ∨ msg.type = K.DISCRETE_CARTESIAN_AND_JOINT_SPACE)
    (hreg : s.icra2009_controller_clients_.find t = some session)
    (hok : ¬ ((s.current_controller_ ≠ "NoController" ∧ s.current_controller_ ≠ t)
      ∧ ∃ e ∈ s.icra2009_controller_clients_, B.isActive e.2 = true)) :
    ∃ cs, sendCommand K B s msg t seq wait =
        some
          { ret := (B.sendCommand session msg seq wait).1
            state :=
              { s with
                current_controller_ := t
                icra2009_controller_clients_ :=
                  s.icra2009_controller_clients_.store t (B.sendCommand session msg seq wait).2 }
            calls :=
              (Call.switchController t :: cs) ++ [Call.sessionSendCommand t msg seq wait] }
      ∧ ∀ c ∈ cs, c.isSend = false ∧ c.isSwitch = false := by
  obtain ⟨cs, hcs, hsend⟩ := switchController_allowed B s t hinit hok
  refine ⟨cs, ?_, hsend⟩
  unfold sendCommand
  simp only [hinit, if_true, if_pos hr, hcs, hreg]

/-- C2, as stated, fails, in both ways the guard of line 71 lets a switch through.  On the
initialized idle client with the sessions `"A"` and `"B"`, controller `"B"` starts a trajectory
on its own: the current controller is still the sentinel, session `"B"` (not the target's
session) reports active, and a joint-space command for `"A"` is forwarded to the session of
`"A"` and returns `true`.  And after a send to `"A"` has made `"A"` current, controller `"B"`
starts a trajectory on its own: session `"B"` reports active, and a second command for `"A"`,
the current controller, is forwarded to the session of `"A"` and returns `true`. -/
theorem sendCommand_other_active_counterexample :
    (run testTypeMsg testVersions testConversions testBaseClient
        [Op.sessionsEvolve (strayStart "B")] (testClient "NoController" false false)
        = some (testClient "NoController" false true)
      ∧ (testClient "NoController" false true).initialized_ = true
      ∧ (("B", ({ active := true, qualified_name := "/B" } : TestSession))
            ∈ (testClient "NoController" false true).icra2009_controller_clients_
          ∧ "B" ≠ "A"
          ∧ testBaseClient.isActive { active := true, qualified_name := "/B" } = true)
      ∧ sendCommand testTypeMsg testBaseClient (testClient "NoController" false true)
            testJointMsg "A" 1 false =
          some
            { ret := true
              state := testClient "A" true true
              calls :=
                [Call.switchController "A", Call.sessionSendCommand "A" testJointMsg 1 false] })
      ∧ run testTypeMsg testVersions testConversions testBaseClient
          [Op.sendCommand testJointMsg "A" 1 false, Op.sessionsEvolve (strayStart "B")]
          (testClient "NoController" false false)
        = some (testClient "A" true true)
      ∧ (testClient "A" true true).initialized_ = true
      ∧ (testClient "A" true true).current_controller_ = "A"
      ∧ (("B", ({ active := true, qualified_name := "/B" } : TestSession))
            ∈ (testClient "A" true true).icra2009_controller_clients_
          ∧ "B" ≠ "A"
          ∧ testBaseClient.isActive { active := true, qualified_name := "/B" } = true)
      ∧ sendCommand testTypeMsg testBaseClient (testClient "A" true true) testJointMsg "A" 2
            false =
          some
            { ret := true
              state := testClient "A" true true
              calls :=
                [Call.switchController "A", Call.sessionSendCommand "A" testJointMsg 2 false] } := by
  decide

/-- C2, amended.  On an initialized client on which some registered session other than the one
of the target `t` reports active: if the current controller is neither `"NoController"` nor
`t`, then `sendCommand` for `t` returns `false`, calls the send operation of no session (that
of `t` included), and leaves the client as it was; if the current controller is
`"NoController"` or `t`, the command is routable and `t` is registered, then the command is
forwarded: `sendCommand` returns what the send operation of the session of `t` returns, that
call is the only session send made, and the current controller is `t` afterwards. -/
theorem sendCommand_mutual_exclusion {σ : Type} (K : TypeMsg) (B : BaseClient σ)
    (s : Client σ) (msg : ICRA2009DMPMsg) (t : String) (seq : Int) (wait : Bool)
    (hinit : s.initialized_ = true)
    (hact : ∃ e ∈ s.icra2009_controller_clients_, e.1 ≠ t ∧ B.isActive e.2 = true) :
    (s.current_controller_ ≠ "NoController" → s.current_controller_ ≠ t →
        ∃ o, sendCommand K B s msg t seq wait = some o
          ∧ o.ret = false
          ∧ (∀ c ∈ o.calls, c.isSend = false)
          ∧ o.state = s)
      ∧ (s.current_controller_ = "NoController" ∨ s.current_controller_ = t →
          (msg.type = K.DISCRETE_JOINT_SPACE ∨ msg.type = K.DISCRETE_CARTESIAN_SPACE
            ∨ msg.type = K.DISCRETE_CARTESIAN_AND_JOINT_SPACE) →
          ∀ session, s.icra2009_controller_clients_.find t = some session →
            ∃ o, sendCommand K B s msg t seq wait = some o
              ∧ o.ret = (B.sendCommand session msg seq wait).1
              ∧ o.calls.filter Call.isSend = [Call.sessionSendCommand t msg seq wait]
              ∧ o.state.current_controller_ = t) := by
  constructor
  · intro hsent hne
    obtain ⟨e, he, _, hactive⟩ := hact
    obtain ⟨cs, hcs, hsend⟩ := sendCommand_denied K B s msg t seq wait hinit hsent hne
      ⟨e, he, hactive⟩
    exact ⟨_, hcs, rfl, hsend, rfl⟩
  · intro hcur hr session hreg
    have hok : ¬ ((s.current_controller_ ≠ "NoController" ∧ s.current_controller_ ≠ t)
        ∧ ∃ e ∈ s.icra2009_controller_clients_, B.isActive e.2 = true) := by
      rintro ⟨⟨h1, h2⟩, _⟩
      rcases hcur with h | h
      · exact h1 h
      · exact h2 h
    obtain ⟨cs, hcs, hsend⟩ := sendCommand_forwarded K B s msg t seq wait session hinit hr
      hreg hok
    refine ⟨_, hcs, rfl, ?_, rfl⟩
    have hnone : cs.filter Call.isSend = [] := by
      rw [List.filter_eq_nil_iff]
      intro c hc
      simp [(hsend c hc).1]
    simp [List.filter_cons, Call.isSend, hnone]

/-- C2, amended, at instances: with `"B"` current and active a joint-space command for `"A"` is
denied; with the sentinel current and `"B"` active the same command is forwarded to `"A"`. -/
theorem sendCommand_mutual_exclusion_witness :
    (∃ o, sendCommand testTypeMsg testBaseClient (testClient "B" false true) testJointMsg "A" 7
          true = some o
        ∧ o.ret = false
        ∧ (∀ c ∈ o.calls, c.isSend = false)
        ∧ o.state = testClient "B" false true)
      ∧ ∃ o, sendCommand testTypeMsg testBaseClient (testClient "NoController" false true)
            testJointMsg "A" 7 true = some o
          ∧ o.ret
              = (testBaseClient.sendCommand { active := false, qualified_name := "/A" }
                  testJointMsg 7 true).1
          ∧ o.calls.filter Call.isSend = [Call.sessionSendCommand "A" testJointMsg 7 true]
          ∧ o.state.current_controller_ = "A" :=
  ⟨(sendCommand_mutual_exclusion testTypeMsg testBaseClient (testClient "B" false true)
      testJointMsg "A" 7 true (by decide)
      ⟨("B", { active := true, qualified_name := "/B" }), by decide, by decide,
        by decide⟩).1 (by decide) (by decide),
    (sendCommand_mutual_exclusion testTypeMsg testBaseClient
      (testClient "NoController" false true) testJointMsg "A" 7 true (by decide)
      ⟨("B", { active := true, qualified_name := "/B" }), by decide, by decide,
        by decide⟩).2 (Or.inl rfl) (by decide) { active := false, qualified_name := "/A" }
      (by decide)⟩

/-- C3, as stated, fails for the initial value of the current controller: controller `"A"`
starts a trajectory on its own while the client is initialized and idle, the current controller
is `"NoController"`, the requested name `"A"` differs from it, `isActive()` returns `true`, and `switchController("A")` returns `true` and records `"A"`. -/
theorem switchController_from_sentinel_counterexample :
    run testTypeMsg testVersions testConversions testBaseClient
        [Op.sessionsEvolve (strayStart "A")] (testClient "NoController" false false)
        = some (testClient "NoController" true false)
      ∧ (testClient "NoController" true false).initialized_ = true
      ∧ "A" ≠ (testClient "NoController" true false).current_controller_
      ∧ (isActive testBaseClient (testClient "NoController" true false)).map Outcome.ret
          = some true
      ∧ switchController testBaseClient (testClient "NoController" true false) "A" =
          some
            { ret := true
              state := testClient "A" true false
              calls := [Call.switchController "A"] } := by
  decide

/-- C3, amended.  On an initialized client whose current controller `c` is not
`"NoController"`, for every name `t` different from `c`: if `isActive()` returns `true` then
`switchController(t)` returns `false` and the current controller is still `c` (the whole client
is as before). -/
theorem switchController_denied_while_active {σ : Type} (B : BaseClient σ) (s : Client σ)
    (t : String) (hinit : s.initialized_ = true)
    (hsent : s.current_controller_ ≠ "NoController") (hne : t ≠ s.current_controller_)
    (hact : ∃ a, isActive B s = some a ∧ a.ret = true) :
    ∃ o, switchController B s t = some o
      ∧ o.ret = false
      ∧ o.state.current_controller_ = s.current_controller_
      ∧ o.state = s := by
  obtain ⟨a, ha, hret⟩ := hact
  unfold isActive at ha
  simp only [hinit, if_true, Option.some.injEq] at ha
  subst ha
  exact ⟨_, switchController_denied B s t hinit hsent (fun h => hne h.symm)
    ((isActiveLoop_ret B _).1 hret), rfl, rfl, rfl⟩

/-- C3, amended, at an instance: the current controller is `"A"`, session `"A"` is active, the
requested name is `"B"`. -/
theorem switchController_denied_while_active_witness :
    ∃ o, switchController testBaseClient (testClient "A" true false) "B" = some o
      ∧ o.ret = false
      ∧ o.state.current_controller_ = (testClient "A" true false).current_controller_
      ∧ o.state = testClient "A" true false :=
  switchController_denied_while_active testBaseClient (testClient "A" true false) "B"
    (by decide) (by decide) (by decide) ⟨_, rfl, by decide⟩

/-! ## What an operation may change -/

/-- `switchController` returns the client as it was, or with the requested name recorded. -/
theorem switchController_state {σ : Type} (B : BaseClient σ) (s : Client σ) (t : String)
    (o : Outcome σ) (h : switchController B s t = some o) :
    o.state = s ∨ o.state = { s with current_controller_ := t } := by
  by_cases hinit : s.initialized_ = true
  · rw [switchController_eq B s t hinit] at h
    simp only [Option.some.injEq] at h
    subst h
    split_ifs <;> simp
  · simp [switchController, hinit] at h

/-- `sendCommand` keeps the keys of the map, and the current controller is as before or the
requested name. -/
theorem sendCommand_state {σ : Type} (K : TypeMsg) (B : BaseClient σ) (s : Client σ)
    (msg : ICRA2009DMPMsg) (t : String) (seq : Int) (wait : Bool) (o : Outcome σ)
    (h : sendCommand K B s msg t seq wait = some o) :
    o.state.icra2009_controller_clients_.keys = s.icra2009_controller_clients_.keys
      ∧ (o.state.current_controller_ = s.current_controller_
        ∨ o.state.current_controller_ = t) := by
  unfold sendCommand at h
  split_ifs at h with hinit hr
  · cases hsw : switchController B s t with
    | none => simp [hsw] at h
    | some sw =>
      have hst := switchController_state B s t sw hsw
      simp only [hsw] at h
      split_ifs at h with hret
      · cases hf : sw.state.icra2009_controller_clients_.find t with
        | none =>
          simp only [hf, Option.some.injEq] at h
          subst h
          rcases hst with hst | hst <;> simp [hst]
        | some session =>
          simp only [hf, Option.some.injEq] at h
          subst h
          rcases hst with hst | hst <;> simp [hst, ControllerMap.keys_store]
      · simp only [Option.some.injEq] at h
        subst h
        rcases hst with hst | hst <;> simp [hst]
  · simp only [Option.some.injEq] at h
    subst h
    simp

/-- Every operation keeps the keys of the map, and the current controller afterwards is the
one before or the controller name the operation was called with. -/
theorem apply_state {σ : Type} (K : TypeMsg) (V : DMPUtilitiesMsg) (W : Conversions)
    (B : BaseClient σ) (s : Client σ) (op : Op σ) (o : Outcome σ)
    (h : op.apply K V W B s = some o) :
    o.state.icra2009_controller_clients_.keys = s.icra2009_controller_clients_.keys
      ∧ (o.state.current_controller_ = s.current_controller_
        ∨ op.target = some o.state.current_controller_) := by
  cases op with
  | switchController n =>
    rcases switchController_state B s n o h with hst | hst <;> simp [hst, Op.target]
  | sendCommand msg n seq wait =>
    obtain ⟨hk, hc⟩ := sendCommand_state K B s msg n seq wait o h
    refine ⟨hk, ?_⟩
    rcases hc with hc | hc
    · exact Or.inl hc
    · exact Or.inr (by simp [Op.target, hc])
  | sendCommandNC2010 msg n seq wait =>
    simp only [Op.apply, sendCommandNC2010, Option.some.injEq] at h
    subst h
    simp
  | sendCommandDMP dmp n seq wait =>
    simp only [Op.apply, sendCommandDMP] at h
    split_ifs at h with hinit hd hv hv2
    · obtain ⟨hk, hc⟩ := sendCommand_state K B s _ n seq wait o h
      refine ⟨hk, ?_⟩
      rcases hc with hc | hc
      · exact Or.inl hc
      · exact Or.inr (by simp [Op.target, hc])
    · simp only [sendCommandNC2010, Option.some.injEq] at h
      subst h
      simp
    · simp only [Option.some.injEq] at h
      subst h
      simp
  | isActive =>
    simp only [Op.apply, isActive] at h
    split_ifs at h
    simp only [Option.some.injEq] at h
    subst h
    simp
  | getControllerStatus =>
    simp only [Op.apply, getControllerStatus] at h
    split_ifs at h
    split at h <;>
      · simp only [Option.some.injEq] at h
        subst h
        simp [ControllerMap.keys_store]
  | waitForCompletion =>
    simp only [Op.apply, waitForCompletion] at h
    split_ifs at h
    split at h <;>
      · simp only [Option.some.injEq] at h
        subst h
        simp [ControllerMap.keys_store]
  | setSingleThreadedMode b =>
    simp only [Op.apply, setSingleThreadedMode] at h
    split_ifs at h
    simp only [Option.some.injEq] at h
    subst h
    simp [setSingleThreadedModeLoop_keys]
  | sessionsEvolve f =>
    simp only [Op.apply, Option.some.injEq] at h
    subst h
    simp [ControllerMap.keys_evolve]

/-- A sequence of operations whose controller names are all the sentinel or keys of the map
keeps the keys and keeps the current controller valid. -/
theorem run_currentValid {σ : Type} (K : TypeMsg) (V : DMPUtilitiesMsg) (W : Conversions)
    (B : BaseClient σ) (ops : List (Op σ)) (s s' : Client σ)
    (hops : ∀ op ∈ ops, ∀ n, op.target = some n →
      n = "NoController" ∨ n ∈ s.icra2009_controller_clients_.keys)
    (hvalid : s.currentValid) (hrun : run K V W B ops s = some s') :
    s'.currentValid := by
  induction ops generalizing s with
  | nil =>
    simp only [run, Option.some.injEq] at hrun
    subst hrun
    exact hvalid
  | cons op rest ih =>
    unfold run at hrun
    cases hop : op.apply K V W B s with
    | none => simp [hop] at hrun
    | some o =>
      simp only [hop] at hrun
      obtain ⟨hk, hc⟩ := apply_state K V W B s op o hop
      refine ih o.state ?_ ?_ hrun
      · intro op' hop' n hn
        rw [hk]
        exact hops op' (List.mem_cons_of_mem _ hop') n hn
      · unfold Client.currentValid
        rw [hk]
        rcases hc with hc | hc
        · rw [hc]; exact hvalid
        · exact hops op (List.mem_cons_self _ _) _ hc

/-- The vector overload of `initialize` does not touch the current controller. -/
theorem initNames_current {σ : Type} (B : BaseClient σ) (s : Client σ) (names : List String)
    (ns : String) (o : Outcome σ) (h : initNames B s names ns = some o) :
    o.state.current_controller_ = s.current_controller_ ∧ o.state.initialized_ = true := by
  unfold initNames at h
  split at h
  · simp at h
  · split at h
    · simp at h
    · simp only [Option.some.injEq] at h
      subst h
      simp

/-- C4, as stated, fails: after a successful `initialize` with the names `"A"` and `"B"`, the
public operation `switchController("X")` succeeds and leaves the current controller `"X"`, which
is neither `"NoController"` nor a key of the controller map. -/
theorem currentValid_counterexample :
    (initNames testBaseClient (Client.new TestSession) ["A", "B"] "/").map Outcome.state
        = some (testClient "NoController" false false)
      ∧ run testTypeMsg testVersions testConversions testBaseClient
          [Op.switchController "X"] (testClient "NoController" false false)
        = some (testClient "X" false false)
      ∧ ¬ (testClient "X" false false).currentValid := by
  decide

/-- C4, amended.  In every state reached from a successfully initialized client (a fresh
client on which `initialize` returned) by a sequence of public operations and of changes of the
sessions on their own, in which every controller name passed to `switchController` or to a
`sendCommand` overload is `"NoController"` or a key of the controller map, the current
controller is `"NoController"` or a key of the controller map. -/
theorem currentValid_invariant {σ : Type} (K : TypeMsg) (V : DMPUtilitiesMsg)
    (W : Conversions) (B : BaseClient σ) (names : List String) (ns : String) (o : Outcome σ)
    (hinit : initNames B (Client.new σ) names ns = some o) (ops : List (Op σ))
    (hops : ∀ op ∈ ops, ∀ n, op.target = some n →
      n = "NoController" ∨ n ∈ o.state.icra2009_controller_clients_.keys)
    (s' : Client σ) (hrun : run K V W B ops o.state = some s') :
    s'.currentValid :=
  run_currentValid K V W B ops o.state s' hops
    (Or.inl ((initNames_current B _ names ns o hinit).1.trans rfl)) hrun

/-- C4, amended, at an instance: `initialize` with `"A"` and `"B"`, then a send to `"A"`, a
status query, the end of the trajectory, a switch to the sentinel and a switch to `"B"`. -/
theorem currentValid_invariant_witness :
    initNames testBaseClient (Client.new TestSession) ["A", "B"] "/" =
        some
          { ret := true
            state := testClient "NoController" false false
            calls := [Call.sessionInit "A" "/A", Call.sessionInit "B" "/B"] }
      ∧ run testTypeMsg testVersions testConversions testBaseClient
          [Op.sendCommand testJointMsg "A" 1 false, Op.getControllerStatus,
            Op.waitForCompletion, Op.switchController "NoController", Op.switchController "B"]
          (testClient "NoController" false false)
        = some (testClient "B" false false)
      ∧ (testClient "B" false false).currentValid :=
  ⟨by decide, by decide,
    currentValid_invariant testTypeMsg testVersions testConversions testBaseClient ["A", "B"]
      "/"
      { ret := true
        state := testClient "NoController" false false
        calls := [Call.sessionInit "A" "/A", Call.sessionInit "B" "/B"] }
      (by decide)
      [Op.sendCommand testJointMsg "A" 1 false, Op.getControllerStatus, Op.waitForCompletion,
        Op.switchController "NoController", Op.switchController "B"]
      (by decide) (testClient "B" false false) (by decide)⟩

/-- C5, as stated, fails: after a joint-space send to `"A"` the client is initialized, the
current controller is `"A"`, session `"A"` is active, and `switchController("NoController")`
returns `false`; the current controller stays `"A"`. -/
theorem switchController_to_sentinel_counterexample :
    run testTypeMsg testVersions testConversions testBaseClient
        [Op.sendCommand testJointMsg "A" 1 false] (testClient "NoController" false false)
        = some (testClient "A" true false)
      ∧ (testClient "A" true false).initialized_ = true
      ∧ switchController testBaseClient (testClient "A" true false) "NoController" =
          some
            { ret := false
              state := testClient "A" true false
              calls := [Call.switchController "NoController", Call.sessionIsActive "A"] } := by
  decide

/-- C5, amended.  On an initialized client `switchController("NoController")` returns, and it
returns `true` exactly when the current controller is `"NoController"` or no registered session
reports active; in particular it always returns `true` from the sentinel and on an idle
client. -/
theorem switchController_to_sentinel {σ : Type} (B : BaseClient σ) (s : Client σ)
    (hinit : s.initialized_ = true) :
    ∃ o, switchController B s "NoController" = some o
      ∧ (o.ret = true ↔
          s.current_controller_ = "NoController"
            ∨ ¬ ∃ e ∈ s.icra2009_controller_clients_, B.isActive e.2 = true) := by
  by_cases hden : s.current_controller_ ≠ "NoController"
      ∧ ∃ e ∈ s.icra2009_controller_clients_, B.isActive e.2 = true
  · refine ⟨_, switchController_denied B s "NoController" hinit hden.1 hden.1 hden.2, ?_⟩
    constructor
    · intro h
      exact Bool.noConfusion h
    · intro h
      rcases h with h | h
      · exact absurd h hden.1
      · exact absurd hden.2 h
  · obtain ⟨cs, hcs, _⟩ := switchController_allowed B s "NoController" hinit
      (fun h => hden ⟨h.1.1, h.2⟩)
    refine ⟨_, hcs, ?_⟩
    constructor
    · intro _
      by_cases hc : s.current_controller_ = "NoController"
      · exact Or.inl hc
      · exact Or.inr (fun ha => hden ⟨hc, ha⟩)
    · intro _
      rfl

/-- C5, amended, at an instance: from the sentinel with a session active. -/
theorem switchController_to_sentinel_witness :
    ∃ o, switchController testBaseClient (testClient "NoController" true false)
          "NoController" = some o
      ∧ (o.ret = true ↔
          (testClient "NoController" true false).current_controller_ = "NoController"
            ∨ ¬ ∃ e ∈ (testClient "NoController" true false).icra2009_controller_clients_,
                testBaseClient.isActive e.2 = true) :=
  switchController_to_sentinel testBaseClient (testClient "NoController" true false)
    (by decide)

/-- C6, as stated, fails when the registered name `A` is the string `"NoController"`:
`initialize` with the names `"NoController"` and `"B"` and a send to `"NoController"` lead to a
client whose current controller is the registered name `"NoController"` with an active session;
a send to the registered name `"B"` with sequence number 2 is then forwarded to the session of
`"B"`, returns `true`, and the current controller becomes `"B"`. -/
theorem sendCommand_sentinel_named_counterexample :
    (initNames testBaseClient (Client.new TestSession) ["NoController", "B"] "/").map
        Outcome.state = some (testClientSentinelNamed false false)
      ∧ run testTypeMsg testVersions testConversions testBaseClient
          [Op.sendCommand testJointMsg "NoController" 1 false]
          (testClientSentinelNamed false false)
        = some (testClientSentinelNamed false true)
      ∧ (testClientSentinelNamed false true).icra2009_controller_clients_.find
          (testClientSentinelNamed false true).current_controller_
        = some { active := true, qualified_name := "/NoController" }
      ∧ "B" ∈ (testClientSentinelNamed false true).icra2009_controller_clients_.keys
      ∧ "B" ≠ (testClientSentinelNamed false true).current_controller_
      ∧ sendCommand testTypeMsg testBaseClient (testClientSentinelNamed false true)
          testJointMsg "B" 2 false =
          some
            { ret := true
              state :=
                { testClientSentinelNamed true true with current_controller_ := "B" }
              calls :=
                [Call.switchController "B", Call.sessionSendCommand "B" testJointMsg 2 false] } := by
  decide

/-- C6, amended.  On an initialized client whose current controller is a registered name `A`
other than the string `"NoController"` and whose session reports active, for every name `b`
different from `A` (registered or not) and every command, `sendCommand` for `b` returns `false`,
calls the send operation of no session, and the current controller is still `A` (the whole
client is as before). -/
theorem sendCommand_denied_end_to_end {σ : Type} (K : TypeMsg) (B : BaseClient σ)
    (s : Client σ) (msg : ICRA2009DMPMsg) (b : String) (seq : Int) (wait : Bool)
    (session : σ) (hinit : s.initialized_ = true)
    (hsent : s.current_controller_ ≠ "NoController")
    (hreg : s.icra2009_controller_clients_.find s.current_controller_ = some session)
    (hact : B.isActive session = true) (hne : b ≠ s.current_controller_) :
    ∃ o, sendCommand K B s msg b seq wait = some o
      ∧ o.ret = false
      ∧ (∀ c ∈ o.calls, c.isSend = false)
      ∧ o.state.current_controller_ = s.current_controller_
      ∧ o.state = s := by
  obtain ⟨cs, hcs, hsend⟩ := sendCommand_denied K B s msg b seq wait hinit hsent
    (fun h => hne h.symm)
    ⟨(s.current_controller_, session), ControllerMap.find_some_mem _ _ _ hreg, hact⟩
  exact ⟨_, hcs, rfl, hsend, rfl, rfl⟩

/-- C6, amended, at the scenario of the spec: the registry is `"A"`, `"B"`; a joint-space send
to `"A"` with sequence number 1 succeeds and makes `"A"` current and active; the send to `"B"`
with sequence number 2 is then denied. -/
theorem sendCommand_denied_end_to_end_witness :
    sendCommand testTypeMsg testBaseClient (testClient "NoController" false false)
        testJointMsg "A" 1 false =
        some
          { ret := true
            state := testClient "A" true false
            calls :=
              [Call.switchController "A", Call.sessionSendCommand "A" testJointMsg 1 false] }
      ∧ ∃ o, sendCommand testTypeMsg testBaseClient (testClient "A" true false) testJointMsg
            "B" 2 false = some o
          ∧ o.ret = false
          ∧ (∀ c ∈ o.calls, c.isSend = false)
          ∧ o.state.current_controller_ = (testClient "A" true false).current_controller_
          ∧ o.state = testClient "A" true false :=
  ⟨by decide,
    sendCommand_denied_end_to_end testTypeMsg testBaseClient (testClient "A" true false)
      testJointMsg "B" 2 false { active := true, qualified_name := "/A" } (by decide)
      (by decide) (by decide) (by decide) (by decide)⟩

/-- On an initialized client `switchController` returns, its first call is the switch itself and
the calls after it are `isActive` queries of sessions; the map is not touched. -/
theorem switchController_calls {σ : Type} (B : BaseClient σ) (s : Client σ) (t : String)
    (hinit : s.initialized_ = true) :
    ∃ sw cs, switchController B s t = some sw
      ∧ sw.calls = Call.switchController t :: cs
      ∧ (∀ c ∈ cs, c.isSend = false ∧ c.isSwitch = false)
      ∧ sw.state.icra2009_controller_clients_ = s.icra2009_controller_clients_
      ∧ (sw.ret = true → sw.state = { s with current_controller_ := t })
      ∧ (sw.ret = false → sw.state = s) := by
  rw [switchController_eq B s t hinit]
  split_ifs
  · exact ⟨_, _, rfl, rfl, isActiveLoop_calls_not_send B _, rfl, by simp, by simp⟩
  · exact ⟨_, _, rfl, rfl, isActiveLoop_calls_not_send B _, rfl, by simp, by simp⟩
  · exact ⟨_, [], rfl, rfl, by simp, rfl, by simp, by simp⟩

/-- The routable branch of `sendCommand` on an initialized client, in terms of the outcome of
the switch. -/
theorem sendCommand_routable {σ : Type} (K : TypeMsg) (B : BaseClient σ) (s : Client σ)
    (msg : ICRA2009DMPMsg) (t : String) (seq : Int) (wait : Bool)
    (hinit : s.initialized_ = true)
    (hr : msg.type = K.DISCRETE_JOINT_SPACE ∨ msg.type = K.DISCRETE_CARTESIAN_SPACE
      ∨ msg.type = K.DISCRETE_CARTESIAN_AND_JOINT_SPACE)
    (sw : Outcome σ) (hsw : switchController B s t = some sw) :
    sendCommand K B s msg t seq wait =
      if sw.ret = true then
        match sw.state.icra2009_controller_clients_.find t with
        | none => some { ret := false, state := sw.state, calls := sw.calls }
        | some session =>
          some
            { ret := (B.sendCommand session msg seq wait).1
              state :=
                { sw.state with
                  icra2009_controller_clients_ :=
                    sw.state.icra2009_controller_clients_.store t
                      (B.sendCommand session msg seq wait).2 }
              calls := sw.calls ++ [Call.sessionSendCommand t msg seq wait] }
      else some { ret := false, state := sw.state, calls := sw.calls } := by
  unfold sendCommand
  simp only [hinit, if_true, if_pos hr, hsw]

/-- C7. Classification is exact and fail-fast: on an initialized client `sendCommand` returns,
it calls `switchController` (with the requested name) exactly when the message type is one of
`DISCRETE_JOINT_SPACE`, `DISCRETE_CARTESIAN_SPACE`, `DISCRETE_CARTESIAN_AND_JOINT_SPACE`, and
for every other type it returns `false` with no call at all (no switch, no session queried or
sent to) and the client as before. -/
theorem sendCommand_classification {σ : Type} (K : TypeMsg) (B : BaseClient σ) (s : Client σ)
    (msg : ICRA2009DMPMsg) (t : String) (seq : Int) (wait : Bool)
    (hinit : s.initialized_ = true) :
    ∃ o, sendCommand K B s msg t seq wait = some o
      ∧ ((∃ c ∈ o.calls, c.isSwitch = true) ↔
          (msg.type = K.DISCRETE_JOINT_SPACE ∨ msg.type = K.DISCRETE_CARTESIAN_SPACE
            ∨ msg.type = K.DISCRETE_CARTESIAN_AND_JOINT_SPACE))
      ∧ (Call.switchController t ∈ o.calls ↔
          (msg.type = K.DISCRETE_JOINT_SPACE ∨ msg.type = K.DISCRETE_CARTESIAN_SPACE
            ∨ msg.type = K.DISCRETE_CARTESIAN_AND_JOINT_SPACE))
      ∧ (¬ (msg.type = K.DISCRETE_JOINT_SPACE ∨ msg.type = K.DISCRETE_CARTESIAN_SPACE
            ∨ msg.type = K.DISCRETE_CARTESIAN_AND_JOINT_SPACE) →
          o = { ret := false, state := s, calls := [] }) := by
  by_cases hr : msg.type = K.DISCRETE_JOINT_SPACE ∨ msg.type = K.DISCRETE_CARTESIAN_SPACE
      ∨ msg.type = K.DISCRETE_CARTESIAN_AND_JOINT_SPACE
  · obtain ⟨sw, cs, hsw, hcalls, _, _, _, _⟩ := switchController_calls B s t hinit
    rw [sendCommand_routable K B s msg t seq wait hinit hr sw hsw]
    have hmem : Call.switchController t ∈ sw.calls := by rw [hcalls]; exact List.mem_cons_self _ _
    split_ifs
    · split
      · exact ⟨_, rfl, by simpa [hr] using ⟨_, hmem, rfl⟩, by simpa [hr] using hmem,
          fun h => absurd hr h⟩
      · refine ⟨_, rfl, ?_, ?_, fun h => absurd hr h⟩
        · simp only [hr, iff_true]
          exact ⟨_, List.mem_append_left _ hmem, rfl⟩
        · simp only [hr, iff_true]
          exact List.mem_append_left _ hmem
    · exact ⟨_, rfl, by simpa [hr] using ⟨_, hmem, rfl⟩, by simpa [hr] using hmem,
        fun h => absurd hr h⟩
  · refine ⟨{ ret := false, state := s, calls := [] }, ?_, by simp [hr], by simp [hr],
      fun _ => rfl⟩
    unfold sendCommand
    simp only [hinit, if_true, if_neg hr]

/-- C7, at an instance: a message of type 9 (none of the three routable constants 1, 2, 3) for
controller `"A"` on an idle client. -/
theorem sendCommand_classification_witness :
    ∃ o, sendCommand testTypeMsg testBaseClient (testClient "NoController" false false)
          { type := 9, payload := [] } "A" 1 false = some o
      ∧ ((∃ c ∈ o.calls, c.isSwitch = true) ↔
          ((9 : Int) = testTypeMsg.DISCRETE_JOINT_SPACE
            ∨ (9 : Int) = testTypeMsg.DISCRETE_CARTESIAN_SPACE
            ∨ (9 : Int) = testTypeMsg.DISCRETE_CARTESIAN_AND_JOINT_SPACE))
      ∧ (Call.switchController "A" ∈ o.calls ↔
          ((9 : Int) = testTypeMsg.DISCRETE_JOINT_SPACE
            ∨ (9 : Int) = testTypeMsg.DISCRETE_CARTESIAN_SPACE
            ∨ (9 : Int) = testTypeMsg.DISCRETE_CARTESIAN_AND_JOINT_SPACE))
      ∧ (¬ ((9 : Int) = testTypeMsg.DISCRETE_JOINT_SPACE
            ∨ (9 : Int) = testTypeMsg.DISCRETE_CARTESIAN_SPACE
            ∨ (9 : Int) = testTypeMsg.DISCRETE_CARTESIAN_AND_JOINT_SPACE) →
          o = { ret := false, state := testClient "NoController" false false, calls := [] }) :=
  sendCommand_classification testTypeMsg testBaseClient (testClient "NoController" false false)
    { type := 9, payload := [] } "A" 1 false (by decide)

/-- C8. Successful routing returns the result of the session verbatim: on an initialized
client, for a routable command and a registered name `t` for which `switchController(t)` returns
`true`, `sendCommand` returns the boolean that the `sendCommand` of the session of `t` returns
for the same message, sequence number and wait flag; that call is the only session send made;
the current controller is `t` afterwards, and the session of `t` is the one the call left. -/
theorem sendCommand_routes_verbatim {σ : Type} (K : TypeMsg) (B : BaseClient σ)
    (s : Client σ) (msg : ICRA2009DMPMsg) (t : String) (seq : Int) (wait : Bool)
    (session : σ) (hinit : s.initialized_ = true)
    (hr : msg.type = K.DISCRETE_JOINT_SPACE ∨ msg.type = K.DISCRETE_CARTESIAN_SPACE
      ∨ msg.type = K.DISCRETE_CARTESIAN_AND_JOINT_SPACE)
    (hreg : s.icra2009_controller_clients_.find t = some session)
    (hallowed : ∃ sw, switchController B s t = some sw ∧ sw.ret = true) :
    ∃ o, sendCommand K B s msg t seq wait = some o
      ∧ o.ret = (B.sendCommand session msg seq wait).1
      ∧ o.calls.filter Call.isSend = [Call.sessionSendCommand t msg seq wait]
      ∧ o.state.current_controller_ = t
      ∧ o.state.icra2009_controller_clients_ =
          s.icra2009_controller_clients_.store t (B.sendCommand session msg seq wait).2 := by
  obtain ⟨sw, hsw, hret⟩ := hallowed
  obtain ⟨sw', cs, hsw', hcalls, hcs, hmap, hstate, _⟩ := switchController_calls B s t hinit
  rw [hsw] at hsw'
  simp only [Option.some.injEq] at hsw'
  subst hsw'
  rw [sendCommand_routable K B s msg t seq wait hinit hr sw hsw, if_pos hret, hmap, hreg]
  refine ⟨_, rfl, rfl, ?_, ?_, rfl⟩
  · have hnone : cs.filter Call.isSend = [] := by
      rw [List.filter_eq_nil_iff]
      intro c hc
      simp [(hcs c hc).1]
    simp [hcalls, List.filter_cons, Call.isSend, hnone]
  · simp [hstate hret]

/-- C8, at an instance: a joint-space command for `"B"` while `"B"` is current and active. -/
theorem sendCommand_routes_verbatim_witness :
    ∃ o, sendCommand testTypeMsg testBaseClient (testClient "B" false true) testJointMsg "B" 5
          true = some o
      ∧ o.ret
          = (testBaseClient.sendCommand { active := true, qualified_name := "/B" } testJointMsg
              5 true).1
      ∧ o.calls.filter Call.isSend = [Call.sessionSendCommand "B" testJointMsg 5 true]
      ∧ o.state.current_controller_ = "B"
      ∧ o.state.icra2009_controller_clients_ =
          (testClient "B" false true).icra2009_controller_clients_.store "B"
            (testBaseClient.sendCommand { active := true, qualified_name := "/B" }
              testJointMsg 5 true).2 :=
  sendCommand_routes_verbatim testTypeMsg testBaseClient (testClient "B" false true)
    testJointMsg "B" 5 true { active := true, qualified_name := "/B" } (by decide)
    (by decide) (by decide) ⟨_, rfl, by decide⟩

/-- C9. Unknown target, no rollback: on an initialized client, for a routable command and a
name `t` that is not a key of the controller map, if `switchController(t)` returns `true` then
`sendCommand` returns `false`, calls the send operation of no session, and leaves the current
controller equal to `t` (the rest of the client is as before). -/
theorem sendCommand_unknown_target {σ : Type} (K : TypeMsg) (B : BaseClient σ)
    (s : Client σ) (msg : ICRA2009DMPMsg) (t : String) (seq : Int) (wait : Bool)
    (hinit : s.initialized_ = true)
    (hr : msg.type = K.DISCRETE_JOINT_SPACE ∨ msg.type = K.DISCRETE_CARTESIAN_SPACE
      ∨ msg.type = K.DISCRETE_CARTESIAN_AND_JOINT_SPACE)
    (hreg : t ∉ s.icra2009_controller_clients_.keys)
    (hallowed : ∃ sw, switchController B s t = some sw ∧ sw.ret = true) :
    ∃ o, sendCommand K B s msg t seq wait = some o
      ∧ o.ret = false
      ∧ (∀ c ∈ o.calls, c.isSend = false)
      ∧ o.state.current_controller_ = t
      ∧ o.state = { s with current_controller_ := t } := by
  obtain ⟨sw, hsw, hret⟩ := hallowed
  obtain ⟨sw', cs, hsw', hcalls, hcs, hmap, hstate, _⟩ := switchController_calls B s t hinit
  rw [hsw] at hsw'
  simp only [Option.some.injEq] at hsw'
  subst hsw'
  rw [sendCommand_routable K B s msg t seq wait hinit hr sw hsw, if_pos hret, hmap,
    (ControllerMap.find_none_iff _ _).2 hreg]
  refine ⟨_, rfl, rfl, ?_, ?_, ?_⟩
  · intro c hc
    simp only [hcalls, List.mem_cons] at hc
    rcases hc with hc | hc
    · rw [hc]; rfl
    · exact (hcs c hc).1
  · simp [hstate hret]
  · simp [hstate hret]

/-- C9, at an instance: a joint-space command for the unregistered name `"X"` on an idle client
whose current controller is `"A"`. -/
theorem sendCommand_unknown_target_witness :
    ∃ o, sendCommand testTypeMsg testBaseClient (testClient "A" false false) testJointMsg "X" 3
          false = some o
      ∧ o.ret = false
      ∧ (∀ c ∈ o.calls, c.isSend = false)
      ∧ o.state.current_controller_ = "X"
      ∧ o.state = { testClient "A" false false with current_controller_ := "X" } :=
  sendCommand_unknown_target testTypeMsg testBaseClient (testClient "A" false false)
    testJointMsg "X" 3 false (by decide) (by decide) (by decide) ⟨_, rfl, by decide⟩

/-- C10, as stated, fails for the generic overload on a client that is not initialized: on the
freshly constructed client the NC2010 overload returns `false`, but the generic overload,
called with an initialized trajectory whose version string is `NC2010`, stops at the assertion
of line 132 and returns nothing. -/
theorem sendCommandDMP_uninitialized_counterexample :
    (Client.new TestSession).initialized_ = false
      ∧ testVersions.NC2010 = "NC2010"
      ∧ sendCommandNC2010 (Client.new TestSession) { payload := [4] } "A" 1 true =
          some { ret := false, state := Client.new TestSession, calls := [] }
      ∧ sendCommandDMP testTypeMsg testVersions testConversions testBaseClient
          (Client.new TestSession)
          { isInitialized := true, versionString := "NC2010", payload := [4] } "A" 1 true =
        none := by
  decide

/-- C10, amended.  The unsupported command family fails without side effect: for every client
(initialized or not), every NC2010 message, name, sequence number and wait flag, the NC2010
overload of `sendCommand` returns `false`, with the client as before and no call made; and on
an initialized client the generic overload, called with an initialized trajectory whose version
string is `NC2010` (a string other than `ICRA2009`), does the same. -/
theorem sendCommand_unsupported_family {σ : Type} (K : TypeMsg) (V : DMPUtilitiesMsg)
    (W : Conversions) (B : BaseClient σ) (hversions : V.ICRA2009 ≠ V.NC2010) :
    (∀ (s : Client σ) (msg : NC2010DMPMsg) (t : String) (seq : Int) (wait : Bool),
        sendCommandNC2010 s msg t seq wait = some { ret := false, state := s, calls := [] })
      ∧ ∀ (s : Client σ) (dmp : DMP) (t : String) (seq : Int) (wait : Bool),
          s.initialized_ = true → dmp.isInitialized = true → dmp.versionString = V.NC2010 →
          sendCommandDMP K V W B s dmp t seq wait =
            some { ret := false, state := s, calls := [] } := by
  refine ⟨fun s msg t seq wait => rfl, ?_⟩
  intro s dmp t seq wait hinit hdmp hv
  have hne : dmp.versionString ≠ V.ICRA2009 := by
    rw [hv]
    exact fun h => hversions h.symm
  unfold sendCommandDMP
  simp only [hinit, hdmp, if_true, if_neg hne, if_pos hv]
  rfl

/-- C10, amended, at an instance: the NC2010 overload on a client that was never initialized,
and the generic overload with an NC2010 trajectory on a client with an active current
controller. -/
theorem sendCommand_unsupported_family_witness :
    sendCommandNC2010 (Client.new TestSession) { payload := [4] } "A" 1 true =
        some { ret := false, state := Client.new TestSession, calls := [] }
      ∧ sendCommandDMP testTypeMsg testVersions testConversions testBaseClient
          (testClient "A" true false)
          { isInitialized := true, versionString := "NC2010", payload := [4] } "B" 1 true =
        some { ret := false, state := testClient "A" true false, calls := [] } :=
  ⟨(sendCommand_unsupported_family testTypeMsg testVersions testConversions testBaseClient
      (by decide)).1 (Client.new TestSession) { payload := [4] } "A" 1 true,
    (sendCommand_unsupported_family testTypeMsg testVersions testConversions testBaseClient
      (by decide)).2 (testClient "A" true false)
      { isInitialized := true, versionString := "NC2010", payload := [4] } "B" 1 true
      (by decide) (by decide) (by decide)⟩

/-- On an initialized client `sendCommand` returns. -/
theorem sendCommand_returns {σ : Type} (K : TypeMsg) (B : BaseClient σ) (s : Client σ)
    (msg : ICRA2009DMPMsg) (t : String) (seq : Int) (wait : Bool)
    (hinit : s.initialized_ = true) : ∃ o, sendCommand K B s msg t seq wait = some o := by
  by_cases hr : msg.type = K.DISCRETE_JOINT_SPACE ∨ msg.type = K.DISCRETE_CARTESIAN_SPACE
      ∨ msg.type = K.DISCRETE_CARTESIAN_AND_JOINT_SPACE
  · obtain ⟨sw, _, hsw, _⟩ := switchController_calls B s t hinit
    rw [sendCommand_routable K B s msg t seq wait hinit hr sw hsw]
    split_ifs
    · split
      · exact ⟨_, rfl⟩
      · exact ⟨_, rfl⟩
    · exact ⟨_, rfl⟩
  · unfold sendCommand
    simp only [hinit, if_true, if_neg hr]
    exact ⟨_, rfl⟩

/-- C11. Dispatch of the generic-trajectory overload: on an initialized client and for an
initialized trajectory, if the version string is `ICRA2009` the overload is the primary
`sendCommand` on the converted message, with the same name, sequence number and wait flag (same
returned value, same client afterwards, same calls), and that call returns; if the version
string is neither `ICRA2009` nor `NC2010` the overload returns `false` with no call at all (no
`switchController`, no session queried or sent to) and the client as before. -/
theorem sendCommandDMP_dispatch {σ : Type} (K : TypeMsg) (V : DMPUtilitiesMsg)
    (W : Conversions) (B : BaseClient σ) (s : Client σ) (dmp : DMP) (t : String) (seq : Int)
    (wait : Bool) (hinit : s.initialized_ = true) (hdmp : dmp.isInitialized = true) :
    (dmp.versionString = V.ICRA2009 →
        ∃ o, sendCommand K B s (W.icra2009 dmp) t seq wait = some o
          ∧ sendCommandDMP K V W B s dmp t seq wait = some o)
      ∧ (dmp.versionString ≠ V.ICRA2009 → dmp.versionString ≠ V.NC2010 →
          sendCommandDMP K V W B s dmp t seq wait =
            some { ret := false, state := s, calls := [] }) := by
  constructor
  · intro hv
    obtain ⟨o, ho⟩ := sendCommand_returns K B s (W.icra2009 dmp) t seq wait hinit
    refine ⟨o, ho, ?_⟩
    unfold sendCommandDMP
    simp only [hinit, hdmp, if_true, if_pos hv]
    exact ho
  · intro h1 h2
    unfold sendCommandDMP
    simp only [hinit, hdmp, if_true, if_neg h1, if_neg h2]

/-- C11, at an instance: an ICRA2009 trajectory for `"A"` on an idle client, and a trajectory of
the unknown version `"RSS2012"` on a client whose current controller is active. -/
theorem sendCommandDMP_dispatch_witness :
    (∃ o, sendCommand testTypeMsg testBaseClient (testClient "NoController" false false)
          (testConversions.icra2009
            { isInitialized := true, versionString := "ICRA2009", payload := [4] }) "A" 1
          false = some o
        ∧ sendCommandDMP testTypeMsg testVersions testConversions testBaseClient
            (testClient "NoController" false false)
            { isInitialized := true, versionString := "ICRA2009", payload := [4] } "A" 1
            false = some o)
      ∧ sendCommandDMP testTypeMsg testVersions testConversions testBaseClient
          (testClient "A" true false)
          { isInitialized := true, versionString := "RSS2012", payload := [4] } "B" 1 false =
        some { ret := false, state := testClient "A" true false, calls := [] } :=
  ⟨(sendCommandDMP_dispatch testTypeMsg testVersions testConversions testBaseClient
      (testClient "NoController" false false)
      { isInitialized := true, versionString := "ICRA2009", payload := [4] } "A" 1 false
      (by decide) (by decide)).1 (by decide),
    (sendCommandDMP_dispatch testTypeMsg testVersions testConversions testBaseClient
      (testClient "A" true false)
      { isInitialized := true, versionString := "RSS2012", payload := [4] } "B" 1 false
      (by decide) (by decide)).2 (by decide) (by decide)⟩

/-- C12. Aggregate activity: on an initialized client `isActive()` returns, it returns `true`
exactly when at least one session in the controller map reports active, it leaves the client as
it was, and the returned value is the same whatever the current controller is. -/
theorem isActive_aggregate {σ : Type} (B : BaseClient σ) (s : Client σ)
    (hinit : s.initialized_ = true) :
    ∃ o, isActive B s = some o
      ∧ (o.ret = true ↔ ∃ e ∈ s.icra2009_controller_clients_, B.isActive e.2 = true)
      ∧ o.state = s
      ∧ ∀ c : String, ∃ o', isActive B { s with current_controller_ := c } = some o'
          ∧ o'.ret = o.ret := by
  unfold isActive
  simp only [hinit, if_true]
  exact ⟨_, rfl, isActiveLoop_ret B _, rfl, fun c => ⟨_, rfl, rfl⟩⟩

/-- C12, at an instance: the current controller is `"A"` and only session `"B"` is active. -/
theorem isActive_aggregate_witness :
    ∃ o, isActive testBaseClient (testClient "A" false true) = some o
      ∧ (o.ret = true ↔
          ∃ e ∈ (testClient "A" false true).icra2009_controller_clients_,
            testBaseClient.isActive e.2 = true)
      ∧ o.state = testClient "A" false true
      ∧ ∀ c : String, ∃ o',
          isActive testBaseClient { testClient "A" false true with current_controller_ := c }
            = some o'
          ∧ o'.ret = o.ret :=
  isActive_aggregate testBaseClient (testClient "A" false true) (by decide)

/-- C14. Reselecting the current controller is always allowed: on an initialized client whose
current controller is `X`, whatever the sessions report (the one of `X` included),
`switchController(X)` returns `true` and the client is as before; no session is asked. -/
theorem switchController_reselect {σ : Type} (B : BaseClient σ) (s : Client σ) (X : String)
    (hinit : s.initialized_ = true) (hcur : s.current_controller_ = X) :
    switchController B s X =
      some { ret := true, state := s, calls := [Call.switchController X] } := by
  rw [switchController_eq B s X hinit, if_neg (fun h => h.1 hcur)]
  subst hcur
  rfl

/-- C14, at an instance: `"A"` is current and both sessions are active. -/
theorem switchController_reselect_witness :
    switchController testBaseClient (testClient "A" true true) "A" =
      some
        { ret := true
          state := testClient "A" true true
          calls := [Call.switchController "A"] } :=
  switchController_reselect testBaseClient (testClient "A" true true) "A" (by decide)
    (by decide)

/-- C15. Idle switching is allowed and idempotent: on an initialized client on which no
registered session reports active, for every name `X`, `switchController(X)` returns `true` and
the current controller is `X` afterwards, and a second `switchController(X)` right after it
returns `true` again and leaves the client equal to the one after the first call. -/
theorem switchController_idle_idempotent {σ : Type} (B : BaseClient σ) (s : Client σ)
    (X : String) (hinit : s.initialized_ = true)
    (hidle : ¬ ∃ e ∈ s.icra2009_controller_clients_, B.isActive e.2 = true) :
    ∃ o₁ o₂, switchController B s X = some o₁
      ∧ o₁.ret = true
      ∧ o₁.state.current_controller_ = X
      ∧ switchController B o₁.state X = some o₂
      ∧ o₂.ret = true
      ∧ o₂.state = o₁.state := by
  obtain ⟨cs, hcs, _⟩ := switchController_allowed B s X hinit (fun h => hidle h.2)
  refine ⟨_, (⟨true, { s with current_controller_ := X }, [Call.switchController X]⟩ :
    Outcome σ), hcs, rfl, rfl, ?_, rfl, rfl⟩
  exact (switchController_eq B { s with current_controller_ := X } X hinit).trans
    (by rw [if_neg (fun h => h.1 rfl)])

/-- C15, at an instance: from `"A"` to `"B"` on an idle client. -/
theorem switchController_idle_idempotent_witness :
    ∃ o₁ o₂, switchController testBaseClient (testClient "A" false false) "B" = some o₁
      ∧ o₁.ret = true
      ∧ o₁.state.current_controller_ = "B"
      ∧ switchController testBaseClient o₁.state "B" = some o₂
      ∧ o₂.ret = true
      ∧ o₂.state = o₁.state :=
  switchController_idle_idempotent testBaseClient (testClient "A" false false) "B"
    (by decide) (by decide)

/-- C13, as stated, fails when a controller is itself named `"NoController"`: after
`initialize` with the names `"NoController"` and `"B"` the current controller is the sentinel,
yet `getControllerStatus` and `waitForCompletion` find a session under that name, call it and
return its `true`. -/
theorem status_queries_sentinel_named_counterexample :
    (initNames testBaseClient (Client.new TestSession) ["NoController", "B"] "/").map
        Outcome.state = some (testClientSentinelNamed false false)
      ∧ (testClientSentinelNamed false false).current_controller_ = "NoController"
      ∧ getControllerStatus testBaseClient (testClientSentinelNamed false false) =
          some
            { ret := true
              state := testClientSentinelNamed false false
              calls := [Call.sessionGetControllerStatus "NoController"] }
      ∧ waitForCompletion testBaseClient (testClientSentinelNamed false false) =
          some
            { ret := true
              state := testClientSentinelNamed false false
              calls := [Call.sessionWaitForCompletion "NoController"] } := by
  decide

/-- C13, amended.  On an initialized client, if the current controller is not a key of the
controller map (as is `"NoController"` unless a controller is registered under that very name)
then `getControllerStatus` and `waitForCompletion` each return `false`, with no call and the
client as before; if it is a key, each returns what the corresponding member of the session
registered under the current controller returns, that call is the only call made, and only
that session is replaced by the session the call left. -/
theorem status_queries_delegate {σ : Type} (B : BaseClient σ) (s : Client σ)
    (hinit : s.initialized_ = true) :
    (s.current_controller_ ∉ s.icra2009_controller_clients_.keys →
        getControllerStatus B s = some { ret := false, state := s, calls := [] }
          ∧ waitForCompletion B s = some { ret := false, state := s, calls := [] })
      ∧ ∀ session, s.icra2009_controller_clients_.find s.current_controller_ = some session →
          getControllerStatus B s =
              some
                { ret := (B.getControllerStatus session).1
                  state :=
                    { s with
                      icra2009_controller_clients_ :=
                        s.icra2009_controller_clients_.store s.current_controller_
                          (B.getControllerStatus session).2 }
                  calls := [Call.sessionGetControllerStatus s.current_controller_] }
            ∧ waitForCompletion B s =
              some
                { ret := (B.waitForCompletion session).1
                  state :=
                    { s with
                      icra2009_controller_clients_ :=
                        s.icra2009_controller_clients_.store s.current_controller_
                          (B.waitForCompletion session).2 }
                  calls := [Call.sessionWaitForCompletion s.current_controller_] } := by
  constructor
  · intro habs
    have hnone := (ControllerMap.find_none_iff _ _).2 habs
    unfold getControllerStatus waitForCompletion
    simp only [hinit, if_true, hnone, and_self]
  · intro session hfind
    unfold getControllerStatus waitForCompletion
    simp only [hinit, if_true, hfind, and_self]

/-- C13, amended, at instances: the sentinel with the sessions `"A"` and `"B"`, and the current
controller `"A"` with an active session. -/
theorem status_queries_delegate_witness :
    (getControllerStatus testBaseClient (testClient "NoController" true false) =
          some { ret := false, state := testClient "NoController" true false, calls := [] }
        ∧ waitForCompletion testBaseClient (testClient "NoController" true false) =
          some { ret := false, state := testClient "NoController" true false, calls := [] })
      ∧ getControllerStatus testBaseClient (testClient "A" true false) =
          some
            { ret := true
              state := testClient "A" true false
              calls := [Call.sessionGetControllerStatus "A"] }
      ∧ waitForCompletion testBaseClient (testClient "A" true false) =
          some
            { ret := true
              state := testClient "A" false false
              calls := [Call.sessionWaitForCompletion "A"] } :=
  ⟨(status_queries_delegate testBaseClient (testClient "NoController" true false)
      (by decide)).1 (by decide),
    (status_queries_delegate testBaseClient (testClient "A" true false) (by decide)).2
      { active := true, qualified_name := "/A" } (by decide)⟩

/-- When `sendCommand` changes the current controller, it has called `switchController` with
the requested name, that switch has returned `true`, and the new value is the requested name. -/
theorem sendCommand_change {σ : Type} (K : TypeMsg) (B : BaseClient σ) (s : Client σ)
    (msg : ICRA2009DMPMsg) (t : String) (seq : Int) (wait : Bool) (o : Outcome σ)
    (hinit : s.initialized_ = true) (h : sendCommand K B s msg t seq wait = some o)
    (hchg : o.state.current_controller_ ≠ s.current_controller_) :
    ∃ sw, switchController B s t = some sw ∧ sw.ret = true
      ∧ Call.switchController t ∈ o.calls ∧ o.state.current_controller_ = t := by
  by_cases hr : msg.type = K.DISCRETE_JOINT_SPACE ∨ msg.type = K.DISCRETE_CARTESIAN_SPACE
      ∨ msg.type = K.DISCRETE_CARTESIAN_AND_JOINT_SPACE
  · obtain ⟨sw, cs, hsw, hcalls, _, _, htrue, hfalse⟩ := switchController_calls B s t hinit
    rw [sendCommand_routable K B s msg t seq wait hinit hr sw hsw] at h
    have hmem : Call.switchController t ∈ sw.calls := by
      rw [hcalls]; exact List.mem_cons_self _ _
    by_cases hret : sw.ret = true
    · rw [if_pos hret] at h
      refine ⟨sw, hsw, hret, ?_, ?_⟩
      · split at h <;>
          · simp only [Option.some.injEq] at h
            subst h
            simp [hmem]
      · split at h <;>
          · simp only [Option.some.injEq] at h
            subst h
            simp [htrue hret]
    · rw [if_neg hret] at h
      simp only [Option.some.injEq] at h
      subst h
      have hf : sw.ret = false := by
        cases hb : sw.ret with
        | true => exact absurd hb hret
        | false => rfl
      exact absurd (by simp [hfalse hf]) hchg
  · unfold sendCommand at h
    simp only [hinit, if_true, if_neg hr, Option.some.injEq] at h
    subst h
    exact absurd rfl hchg

/-- C18. The current controller is changed by a successful switch only: on an initialized
client, if the current controller after an operation differs from the one before, then the
operation is `switchController`, the primary `sendCommand` or the generic `sendCommand`
overload, it has called `switchController` with its controller name, that switch returns `true`
on the client before, and the new value is that name.  In particular the operations without a
controller name (`isActive`, `getControllerStatus`, `waitForCompletion`,
`setSingleThreadedMode`), every operation that has not called `switchController` (a send
rejected by classification, the NC2010 overload) and every operation whose switch is denied
leave the current controller as it was. -/
theorem current_controller_frame {σ : Type} (K : TypeMsg) (V : DMPUtilitiesMsg)
    (W : Conversions) (B : BaseClient σ) (s : Client σ) (op : Op σ) (o : Outcome σ)
    (hinit : s.initialized_ = true) (h : op.apply K V W B s = some o) :
    (o.state.current_controller_ ≠ s.current_controller_ →
        ∃ t sw, op.target = some t
          ∧ ((∃ n, op = Op.switchController n) ∨ (∃ m n q w, op = Op.sendCommand m n q w)
            ∨ ∃ d n q w, op = Op.sendCommandDMP d n q w)
          ∧ Call.switchController t ∈ o.calls
          ∧ switchController B s t = some sw ∧ sw.ret = true
          ∧ o.state.current_controller_ = t)
      ∧ (op.target = none → o.state.current_controller_ = s.current_controller_)
      ∧ ((∀ c ∈ o.calls, c.isSwitch = false) →
          o.state.current_controller_ = s.current_controller_)
      ∧ (∀ t sw, op.target = some t → switchController B s t = some sw → sw.ret = false →
          o.state.current_controller_ = s.current_controller_) := by
  have main : o.state.current_controller_ ≠ s.current_controller_ →
      ∃ t sw, op.target = some t
        ∧ ((∃ n, op = Op.switchController n) ∨ (∃ m n q w, op = Op.sendCommand m n q w)
          ∨ ∃ d n q w, op = Op.sendCommandDMP d n q w)
        ∧ Call.switchController t ∈ o.calls
        ∧ switchController B s t = some sw ∧ sw.ret = true
        ∧ o.state.current_controller_ = t := by
    intro hchg
    cases op with
    | switchController n =>
      obtain ⟨sw, cs, hsw, hcalls, _, _, htrue, hfalse⟩ := switchController_calls B s n hinit
      have ho : sw = o := by
        have h' : switchController B s n = some o := h
        rw [hsw] at h'
        exact Option.some.inj h'
      subst ho
      refine ⟨n, sw, rfl, Or.inl ⟨n, rfl⟩, by rw [hcalls]; exact List.mem_cons_self _ _, hsw,
        ?_, ?_⟩
      · cases hb : sw.ret with
        | true => rfl
        | false => exact absurd (by rw [hfalse hb]) hchg
      · cases hb : sw.ret with
        | true => rw [htrue hb]
        | false => exact absurd (by rw [hfalse hb]) hchg
    | sendCommand msg n seq wait =>
      obtain ⟨sw, hsw, hret, hmem, hcur⟩ :=
        sendCommand_change K B s msg n seq wait o hinit h hchg
      exact ⟨n, sw, rfl, Or.inr (Or.inl ⟨msg, n, seq, wait, rfl⟩), hmem, hsw, hret, hcur⟩
    | sendCommandNC2010 msg n seq wait =>
      have h' : sendCommandNC2010 s msg n seq wait = some o := h
      simp only [sendCommandNC2010, Option.some.injEq] at h'
      subst h'
      exact absurd rfl hchg
    | sendCommandDMP dmp n seq wait =>
      have h' : sendCommandDMP K V W B s dmp n seq wait = some o := h
      unfold sendCommandDMP at h'
      split_ifs at h' with _ hd hv
      · obtain ⟨sw, hsw, hret, hmem, hcur⟩ :=
          sendCommand_change K B s _ n seq wait o hinit h' hchg
        exact ⟨n, sw, rfl, Or.inr (Or.inr ⟨dmp, n, seq, wait, rfl⟩), hmem, hsw, hret, hcur⟩
      · simp only [sendCommandNC2010, Option.some.injEq] at h'
        subst h'
        exact absurd rfl hchg
      · simp only [Option.some.injEq] at h'
        subst h'
        exact absurd rfl hchg
    | isActive =>
      rcases (apply_state K V W B s _ o h).2 with hc | hc
      · exact absurd hc hchg
      · simp [Op.target] at hc
    | getControllerStatus =>
      rcases (apply_state K V W B s _ o h).2 with hc | hc
      · exact absurd hc hchg
      · simp [Op.target] at hc
    | waitForCompletion =>
      rcases (apply_state K V W B s _ o h).2 with hc | hc
      · exact absurd hc hchg
      · simp [Op.target] at hc
    | setSingleThreadedMode b =>
      rcases (apply_state K V W B s _ o h).2 with hc | hc
      · exact absurd hc hchg
      · simp [Op.target] at hc
    | sessionsEvolve f =>
      rcases (apply_state K V W B s _ o h).2 with hc | hc
      · exact absurd hc hchg
      · simp [Op.target] at hc
  refine ⟨main, ?_, ?_, ?_⟩
  · intro hnone
    by_contra hchg
    obtain ⟨t, _, ht, _⟩ := main hchg
    rw [hnone] at ht
    exact Option.noConfusion ht
  · intro hcalls
    by_contra hchg
    obtain ⟨t, _, _, _, hmem, _⟩ := main hchg
    exact Bool.noConfusion (hcalls _ hmem)
  · intro t sw ht hsw hret
    by_contra hchg
    obtain ⟨t', sw', ht', _, _, hsw', hret', _⟩ := main hchg
    rw [ht] at ht'
    obtain rfl := Option.some.inj ht'
    rw [hsw] at hsw'
    obtain rfl := Option.some.inj hsw'
    rw [hret] at hret'
    exact Bool.noConfusion hret'

/-- C18, at an instance: the joint-space send to `"A"` on the idle client changes the current
controller from the sentinel to `"A"`, through a switch that returns `true`. -/
theorem current_controller_frame_witness :
    ∃ t sw, (Op.sendCommand testJointMsg "A" 1 false : Op TestSession).target = some t
      ∧ ((∃ n, (Op.sendCommand testJointMsg "A" 1 false : Op TestSession)
            = Op.switchController n)
        ∨ (∃ m n q w, (Op.sendCommand testJointMsg "A" 1 false : Op TestSession)
            = Op.sendCommand m n q w)
        ∨ ∃ d n q w, (Op.sendCommand testJointMsg "A" 1 false : Op TestSession)
            = Op.sendCommandDMP d n q w)
      ∧ Call.switchController t
          ∈ [Call.switchController "A", Call.sessionSendCommand "A" testJointMsg 1 false]
      ∧ switchController testBaseClient (testClient "NoController" false false) t = some sw
      ∧ sw.ret = true
      ∧ (testClient "A" true false).current_controller_ = t :=
  (current_controller_frame testTypeMsg testVersions testConversions testBaseClient
    (testClient "NoController" false false) (Op.sendCommand testJointMsg "A" 1 false)
    { ret := true
      state := testClient "A" true false
      calls := [Call.switchController "A", Call.sessionSendCommand "A" testJointMsg 1 false] }
    (by decide) (by decide)).1 (by decide)

/-! ## The controller map after `initialize` -/

theorem ControllerMap.keys_insert {σ : Type} (m : ControllerMap σ) (k : String) (v : σ)
    (key : String) : key ∈ (m.insert k v).keys ↔ key = k ∨ key ∈ m.keys := by
  induction m with
  | nil => simp [ControllerMap.insert, ControllerMap.keys]
  | cons e rest ih =>
    obtain ⟨k', w⟩ := e
    unfold ControllerMap.insert
    simp only [ControllerMap.keys] at ih
    by_cases hk : k' = k
    · simp only [hk, if_true, ControllerMap.keys, List.map_cons, List.mem_cons]
      tauto
    · by_cases hlt : k.data < k'.data
      · simp only [hk, if_false, hlt, if_true, ControllerMap.keys, List.map_cons,
          List.mem_cons]
      · simp only [hk, if_false, hlt, ControllerMap.keys, List.map_cons, List.mem_cons, ih]
        tauto

theorem ControllerMap.mem_insert {σ : Type} (m : ControllerMap σ) (k : String) (v : σ)
    (e : String × σ) (he : e ∈ m.insert k v) : e ∈ m ∨ e = (k, v) := by
  induction m with
  | nil =>
    simp only [ControllerMap.insert, List.mem_singleton] at he
    exact Or.inr he
  | cons e' rest ih =>
    obtain ⟨k', w⟩ := e'
    unfold ControllerMap.insert at he
    by_cases hk : k' = k
    · simp only [hk, if_true] at he
      exact Or.inl (by simpa [hk] using he)
    · by_cases hlt : k.data < k'.data
      · simp only [hk, if_false, hlt, if_true, List.mem_cons] at he
        rcases he with he | he
        · exact Or.inr he
        · exact Or.inl (List.mem_cons.2 he)
      · simp only [hk, if_false, hlt, List.mem_cons] at he
        rcases he with he | he
        · exact Or.inl (List.mem_cons.2 (Or.inl he))
        · rcases ih he with h | h
          · exact Or.inl (List.mem_cons_of_mem _ h)
          · exact Or.inr h

theorem ControllerMap.find_isSome_iff {σ : Type} (m : ControllerMap σ) (key : String) :
    (m.find key).isSome = true ↔ key ∈ m.keys := by
  cases h : m.find key with
  | none =>
    have := (ControllerMap.find_none_iff m key).1 h
    simp [this]
  | some v =>
    have hmem : key ∈ m.keys := by
      by_contra hcon
      rw [(ControllerMap.find_none_iff m key).2 hcon] at h
      exact Option.noConfusion h
    simp [hmem]

/-- The loop of `initialize` fails exactly when the `initialize` of some session fails. -/
theorem initLoop_eq_none_iff {σ : Type} (B : BaseClient σ) (ns : String)
    (names : List String) (m : ControllerMap σ) :
    initLoop B ns names m = none ↔ ∃ n ∈ names, (B.init B.create (ns ++ n)).1 = false := by
  induction names generalizing m with
  | nil => simp [initLoop]
  | cons name rest ih =>
    unfold initLoop
    cases hr : (B.init B.create (ns ++ name)).1 with
    | false => simp [ROS_VERIFY, hr]
    | true =>
      simp only [ROS_VERIFY, if_true, List.mem_cons, exists_eq_or_imp, hr,
        Bool.true_eq_false, false_or]
      rw [← ih (m.insert name (B.init B.create (ns ++ name)).2)]
      cases initLoop B ns rest (m.insert name (B.init B.create (ns ++ name)).2) with
      | none => simp
      | some p => simp

/-- What the loop of `initialize` leaves when it succeeds: the keys are the old keys and the
names, each new session is the one its `initialize` left, and one session was initialized per
name, under the qualified name. -/
theorem initLoop_some {σ : Type} (B : BaseClient σ) (ns : String) (names : List String)
    (m m' : ControllerMap σ) (cs : List Call) (h : initLoop B ns names m = some (m', cs)) :
    (∀ key, key ∈ m'.keys ↔ key ∈ names ∨ key ∈ m.keys)
      ∧ (∀ e ∈ m', e ∈ m ∨ (e.1 ∈ names ∧ e.2 = (B.init B.create (ns ++ e.1)).2))
      ∧ cs = names.map (fun n => Call.sessionInit n (ns ++ n)) := by
  induction names generalizing m cs with
  | nil =>
    simp only [initLoop, Option.some.injEq, Prod.mk.injEq] at h
    obtain ⟨rfl, rfl⟩ := h
    simp
  | cons name rest ih =>
    unfold initLoop at h
    cases hr : (B.init B.create (ns ++ name)).1 with
    | false => simp [ROS_VERIFY, hr] at h
    | true =>
      simp only [ROS_VERIFY, hr, if_true] at h
      cases hrest : initLoop B ns rest (m.insert name (B.init B.create (ns ++ name)).2) with
      | none => simp [hrest] at h
      | some p =>
        obtain ⟨m'', cs'⟩ := p
        simp only [hrest, Option.some.injEq, Prod.mk.injEq] at h
        obtain ⟨rfl, rfl⟩ := h
        obtain ⟨hkeys, hmem, hcs⟩ := ih _ _ hrest
        refine ⟨?_, ?_, ?_⟩
        · intro key
          rw [hkeys key, ControllerMap.keys_insert, List.mem_cons]
          tauto
        · intro e he
          rcases hmem e he with h1 | h1
          · rcases ControllerMap.mem_insert _ _ _ _ h1 with h2 | h2
            · exact Or.inl h2
            · exact Or.inr (by simp [h2])
          · exact Or.inr ⟨List.mem_cons_of_mem _ h1.1, h1.2⟩
        · simp [hcs]

/-- C16. Registry membership after `initialize`: for a non-empty list of names and a namespace
prefix, if the `initialize` of every constructed session succeeds, then `initialize` on a
freshly constructed client returns `true` and marks the client initialized; afterwards the
lookup of a name in the controller map finds a session exactly when the name occurs in the
list, the session found is the one its `initialize` under `namespace_prefix + name` left, and
one session per name of the list was initialized, under that qualified name. -/
theorem initialize_registry_membership {σ : Type} (B : BaseClient σ) (names : List String)
    (ns : String) (hne : names ≠ [])
    (hall : ∀ n ∈ names, (B.init B.create (ns ++ n)).1 = true) :
    ∃ o, initNames B (Client.new σ) names ns = some o
      ∧ o.ret = true
      ∧ o.state.initialized_ = true
      ∧ (∀ n, (o.state.icra2009_controller_clients_.find n).isSome = true ↔ n ∈ names)
      ∧ (∀ n session, o.state.icra2009_controller_clients_.find n = some session →
          session = (B.init B.create (ns ++ n)).2)
      ∧ o.calls = names.map (fun n => Call.sessionInit n (ns ++ n)) := by
  have hempty : names.isEmpty = false := by
    cases names with
    | nil => exact absurd rfl hne
    | cons a l => rfl
  cases hloop : initLoop B ns names (Client.new σ).icra2009_controller_clients_ with
  | none =>
    obtain ⟨n, hn, hfalse⟩ := (initLoop_eq_none_iff B ns names _).1 hloop
    rw [hall n hn] at hfalse
    exact Bool.noConfusion hfalse
  | some p =>
    obtain ⟨m', cs⟩ := p
    obtain ⟨hkeys, hmem, hcs⟩ := initLoop_some B ns names _ m' cs hloop
    refine ⟨{ ret := true
              state :=
                { initialized_ := true
                  current_controller_ := (Client.new σ).current_controller_
                  controller_names_ := names
                  icra2009_controller_clients_ := m' }
              calls := cs }, ?_, rfl, rfl, ?_, ?_, hcs⟩
    · unfold initNames
      simp only [ROS_VERIFY, hempty, Bool.not_false, if_true, hloop]
    · intro n
      rw [ControllerMap.find_isSome_iff, hkeys n]
      simp [Client.new, ControllerMap.keys]
    · intro n session hfind
      rcases hmem _ (ControllerMap.find_some_mem _ _ _ hfind) with h | h
      · simp [Client.new] at h
      · exact h.2

/-- C16, at an instance: the names `"B"`, `"A"` under the prefix `"/"` on the test double. -/
theorem initialize_registry_membership_witness :
    ∃ o, initNames testBaseClient (Client.new TestSession) ["B", "A"] "/" = some o
      ∧ o.ret = true
      ∧ o.state.initialized_ = true
      ∧ (∀ n, (o.state.icra2009_controller_clients_.find n).isSome = true ↔ n ∈ ["B", "A"])
      ∧ (∀ n session, o.state.icra2009_controller_clients_.find n = some session →
          session = (testBaseClient.init testBaseClient.create ("/" ++ n)).2)
      ∧ o.calls = ["B", "A"].map (fun n => Call.sessionInit n ("/" ++ n)) :=
  initialize_registry_membership testBaseClient ["B", "A"] "/" (by decide) (by decide)

/-- C17. The vector overload of `initialize` succeeds or fails as a whole: for every client,
name list and namespace prefix it returns (with `true`, the client marked initialized) exactly
when the list is not empty and the `initialize` of every constructed session returns `true`;
when the list is empty or the `initialize` of some session fails, the operation ends on the
failed check without an outcome, so that no client, marked initialized or with a partly built
map, comes out of it. -/
theorem initialize_all_or_nothing {σ : Type} (B : BaseClient σ) (s : Client σ)
    (names : List String) (ns : String) :
    ((∃ o, initNames B s names ns = some o ∧ o.ret = true ∧ o.state.initialized_ = true) ↔
        names ≠ [] ∧ ∀ n ∈ names, (B.init B.create (ns ++ n)).1 = true)
      ∧ ((names = [] ∨ ∃ n ∈ names, (B.init B.create (ns ++ n)).1 = false) ↔
          initNames B s names ns = none) := by
  have hsecond : (names = [] ∨ ∃ n ∈ names, (B.init B.create (ns ++ n)).1 = false) ↔
      initNames B s names ns = none := by
    unfold initNames
    cases names with
    | nil => simp [ROS_VERIFY]
    | cons a l =>
      simp only [ROS_VERIFY, List.isEmpty_cons, Bool.not_false, if_true, reduceCtorEq,
        false_or]
      rw [← initLoop_eq_none_iff B ns (a :: l) s.icra2009_controller_clients_]
      cases initLoop B ns (a :: l) s.icra2009_controller_clients_ with
      | none => simp
      | some p => simp
  refine ⟨?_, hsecond⟩
  constructor
  · rintro ⟨o, ho, _, _⟩
    have hnot : ¬ (names = [] ∨ ∃ n ∈ names, (B.init B.create (ns ++ n)).1 = false) := by
      intro hcon
      rw [hsecond.1 hcon] at ho
      exact Option.noConfusion ho
    rw [not_or] at hnot
    refine ⟨hnot.1, fun n hn => ?_⟩
    cases hb : (B.init B.create (ns ++ n)).1 with
    | true => rfl
    | false => exact absurd ⟨n, hn, hb⟩ hnot.2
  · rintro ⟨hne, hall⟩
    cases ho : initNames B s names ns with
    | none =>
      rcases hsecond.2 ho with h | ⟨n, hn, hfalse⟩
      · exact absurd h hne
      · rw [hall n hn] at hfalse
        exact Bool.noConfusion hfalse
    | some o =>
      have := initNames_current B s names ns o ho
      refine ⟨o, rfl, ?_, this.2⟩
      unfold initNames at ho
      split at ho
      · simp at ho
      · split at ho
        · simp at ho
        · simp only [Option.some.injEq] at ho
          subst ho
          rfl

/-- C17, at instances: the empty name list, and the names `"A"`, `"B"` when the session of
`"B"` fails to initialize. -/
theorem initialize_all_or_nothing_witness :
    initNames testBaseClient (Client.new TestSession) [] "/" = none
      ∧ initNames (testFailingBaseClient "/B") (Client.new TestSession) ["A", "B"] "/" = none :=
  ⟨(initialize_all_or_nothing testBaseClient (Client.new TestSession) [] "/").2.1
      (Or.inl rfl),
    (initialize_all_or_nothing (testFailingBaseClient "/B") (Client.new TestSession)
      ["A", "B"] "/").2.1 (Or.inr ⟨"B", by decide, by decide⟩)⟩

end dmp_utilities

namespace Data_loader

/-! ## The sort by sequence number -/

theorem lastWithSeq_cons (msg : GraspLog) (rest : List GraspLog) (i : Int) :
    lastWithSeq (msg :: rest) i =
      if msg.seq = i then some ((lastWithSeq rest i).getD msg) else lastWithSeq rest i := by
  unfold lastWithSeq
  by_cases h : msg.seq = i
  · simp [h, List.filter_cons, List.getLast?_cons]
  · simp [h, List.filter_cons]

theorem lastWithSeq_some (log : List GraspLog) (i : Int) (m : GraspLog)
    (h : lastWithSeq log i = some m) : m ∈ log ∧ m.seq = i := by
  have := List.mem_of_getLast?_eq_some h
  simpa [List.mem_filter] using this

theorem lastWithSeq_exists (log : List GraspLog) (i : Int) (h : ∃ msg ∈ log, msg.seq = i) :
    ∃ m, lastWithSeq log i = some m := by
  obtain ⟨msg, hmem, hseq⟩ := h
  cases hl : lastWithSeq log i with
  | some m => exact ⟨m, rfl⟩
  | none =>
    unfold lastWithSeq at hl
    rw [List.getLast?_eq_none_iff, List.filter_eq_nil_iff] at hl
    exact absurd (by simpa using hseq) (hl msg hmem)

/-- On a log whose `seq` values are all 0, 1 or 2 the loop of lines 64-68 ends, and each slot
holds the last message with its index, or what it held before when there is none. -/
theorem sortLoop_slots (log : List GraspLog) (a b c : Option GraspLog)
    (h : ∀ msg ∈ log, msg.seq = 0 ∨ msg.seq = 1 ∨ msg.seq = 2) :
    sortLoop log [a, b, c] =
      some [(lastWithSeq log 0).or a, (lastWithSeq log 1).or b, (lastWithSeq log 2).or c] := by
  induction log generalizing a b c with
  | nil => simp [sortLoop, lastWithSeq, Option.or]
  | cons msg rest ih =>
    have hrest : ∀ m ∈ rest, m.seq = 0 ∨ m.seq = 1 ∨ m.seq = 2 :=
      fun m hm => h m (List.mem_cons_of_mem _ hm)
    unfold sortLoop
    rcases h msg (List.mem_cons_self _ _) with h0 | h1 | h2
    · have hw : sortedWrite [a, b, c] msg.seq msg = some [some msg, b, c] := by
        simp [sortedWrite, h0]
      rw [hw]
      show sortLoop rest _ = _
      rw [ih _ _ _ hrest]
      cases hl : lastWithSeq rest 0 <;> simp [lastWithSeq_cons, h0, hl, Option.or]
    · have hw : sortedWrite [a, b, c] msg.seq msg = some [a, some msg, c] := by
        simp [sortedWrite, h1]
      rw [hw]
      show sortLoop rest _ = _
      rw [ih _ _ _ hrest]
      cases hl : lastWithSeq rest 1 <;> simp [lastWithSeq_cons, h1, hl, Option.or]
    · have hw : sortedWrite [a, b, c] msg.seq msg = some [a, b, some msg] := by
        simp [sortedWrite, h2]
      rw [hw]
      show sortLoop rest _ = _
      rw [ih _ _ _ hrest]
      cases hl : lastWithSeq rest 2 <;> simp [lastWithSeq_cons, h2, hl, Option.or]

/-- When the loop of lines 64-68 ends on a table of three slots, every `seq` was 0, 1 or 2. -/
theorem sortLoop_in_bounds (log : List GraspLog) (tbl tbl' : SortedTable)
    (hlen : tbl.length = 3) (h : sortLoop log tbl = some tbl') :
    ∀ msg ∈ log, msg.seq = 0 ∨ msg.seq = 1 ∨ msg.seq = 2 := by
  induction log generalizing tbl with
  | nil => simp
  | cons msg rest ih =>
    unfold sortLoop at h
    cases hw : sortedWrite tbl msg.seq msg with
    | none => simp [hw] at h
    | some t =>
      simp only [hw] at h
      unfold sortedWrite at hw
      split_ifs at hw with hb
      simp only [Option.some.injEq] at hw
      have hlen' : t.length = 3 := by rw [← hw]; simp [hlen]
      intro m hm
      rcases List.mem_cons.1 hm with hm | hm
      · rw [hm]
        rw [hlen] at hb
        omega
      · exact ih t hlen' h m hm

/-- On a well-formed log the sort ends and the reads of slots 0 and 1 give the last messages
with `seq` 0 and 1. -/
theorem sortLoop_wellFormed (log : List GraspLog) (h : WellFormedLog log) :
    ∃ tbl m0 m1, sortLoop log [none, none, none] = some tbl
      ∧ tbl.length = 3
      ∧ sortedRead tbl 0 = some m0 ∧ m0.seq = 0 ∧ lastWithSeq log 0 = some m0
      ∧ sortedRead tbl 1 = some m1 ∧ m1.seq = 1 ∧ lastWithSeq log 1 = some m1 := by
  obtain ⟨hall, h0, h1⟩ := h
  obtain ⟨m0, hm0⟩ := lastWithSeq_exists log 0 h0
  obtain ⟨m1, hm1⟩ := lastWithSeq_exists log 1 h1
  refine ⟨_, m0, m1, sortLoop_slots log none none none hall, rfl, ?_,
    (lastWithSeq_some log 0 m0 hm0).2, hm0, ?_, (lastWithSeq_some log 1 m1 hm1).2, hm1⟩
  · simp [sortedRead, hm0, Option.or]
  · simp [sortedRead, hm1, Option.or]

/-- The loop of lines 184-188 keeps the vectors placeholders-only. -/
theorem pushRandomTemplates_placeholders (ts : List GraspTemplate) (r : ResultVectors)
    (h : OnlyPlaceholders r) : OnlyPlaceholders (pushRandomTemplates ts r) := by
  induction ts generalizing r with
  | nil => exact h
  | cons t rest ih =>
    unfold pushRandomTemplates
    apply ih
    obtain ⟨h1, h2, h3, h4⟩ := h
    refine ⟨by simp [h1], by simp [h2], ?_, ?_⟩
    · intro u hu
      rcases List.mem_append.1 hu with hu | hu
      · exact h3 u hu
      · simpa using hu
    · intro x hx
      rcases List.mem_append.1 hx with hx | hx
      · exact h4 x hx
      · simpa using hx

/-- The condition of lines 73-74 is false for every applied grasp. -/
theorem appliedGraspTest_false (g : GraspAnalysis) : (appliedGraspTest g).1 = false := by
  simp [appliedGraspTest]

/-- C19. `Load_trial_log` never records the executed grasp: the condition of lines 73-74
assigns `0.0` to `grasp_success`, so it is false whatever the applied grasp holds (0.0 and 1.0
included) and the branch of lines 76-84 is not taken; hence, whenever `Load_trial_log` returns,
`result_template`, `result_uuid` and `result_success` have the same length, every entry of
`result_uuid` is `"__NONE__"` and every entry of `result_success` is `-1.0`; and it does return,
with `true`, on every log whose `seq` values are 0, 1 or 2 with a message of `seq` 0 and one of
`seq` 1. -/
theorem Load_trial_log_only_placeholders (E : Collaborators) (topic path : String) :
    (∀ g : GraspAnalysis, (appliedGraspTest g).1 = false)
      ∧ (∀ r, Load_trial_log E topic path = some r → OnlyPlaceholders r.vectors)
      ∧ (WellFormedLog (E.readFromBagFile topic path) →
          ∃ r, Load_trial_log E topic path = some r ∧ r.ret = true
            ∧ OnlyPlaceholders r.vectors) := by
  have hempty : OnlyPlaceholders
      { result_template := [], result_uuid := [], result_success := [] } := by
    simp [OnlyPlaceholders]
  have hret : ∀ r, Load_trial_log E topic path = some r → OnlyPlaceholders r.vectors := by
    intro r hr
    unfold Load_trial_log at hr
    simp only [appliedGraspTest_false] at hr
    split at hr
    · exact Option.noConfusion hr
    · split at hr
      · exact Option.noConfusion hr
      · split at hr
        · exact Option.noConfusion hr
        · simp only [Option.some.injEq] at hr
          subst hr
          simp only [Bool.false_eq_true, if_false]
          split_ifs
          · exact pushRandomTemplates_placeholders _ _ hempty
          · exact hempty
  refine ⟨appliedGraspTest_false, hret, ?_⟩
  intro hwf
  obtain ⟨tbl, m0, m1, hsort, _, hr0, _, _, hr1, _, _⟩ := sortLoop_wellFormed _ hwf
  have hsome : ∃ r, Load_trial_log E topic path = some r ∧ r.ret = true := by
    unfold Load_trial_log
    simp only [hsort, hr0, hr1]
    exact ⟨_, rfl, rfl⟩
  obtain ⟨r, hr, hrt⟩ := hsome
  exact ⟨r, hr, hrt, hret r hr⟩

/-- C19, at an instance: the bag holds four messages out of order, the applied grasp of the
last message with `seq` 1 has `grasp_success` 1.0, and the sampling yields two templates. -/
theorem Load_trial_log_only_placeholders_witness :
    (appliedGraspTest (testGrasp 1 "applied")).1 = false
      ∧ (Load_trial_log testCollaborators "/grasp_log" "trial.bag").map
          (fun r => (r.vectors.result_uuid, r.vectors.result_success))
          = some (["__NONE__", "__NONE__"], [-1, -1])
      ∧ ∃ r, Load_trial_log testCollaborators "/grasp_log" "trial.bag" = some r
          ∧ r.ret = true ∧ OnlyPlaceholders r.vectors :=
  ⟨(Load_trial_log_only_placeholders testCollaborators "/grasp_log" "trial.bag").1
      (testGrasp 1 "applied"),
    by decide,
    (Load_trial_log_only_placeholders testCollaborators "/grasp_log" "trial.bag").2.2
      ⟨by decide, ⟨testMsg 0 [7] 0, by decide, by decide⟩,
        ⟨testMsg 1 [] 1, by decide, by decide⟩⟩⟩

/-- C20. Index safety of the sort by sequence number: on a log in which every `seq` is 0, 1 or
2, with a message of `seq` 0 and a message of `seq` 1, every write of line 66 lies within the
three-slot table (the loop ends with a table, of three slots), and the reads of slots 0 and 1
give a message (no null slot) whose `seq` is the slot index, namely the last message with that
`seq` in bag order.  The function checks neither the index nor the slot: when the loop ends and
both reads give a message, the log was of that form. -/
theorem sort_index_safety (log : List GraspLog) :
    (WellFormedLog log →
        ∃ tbl m0 m1, sortLoop log [none, none, none] = some tbl
          ∧ tbl.length = 3
          ∧ sortedRead tbl 0 = some m0 ∧ m0.seq = 0 ∧ lastWithSeq log 0 = some m0
          ∧ sortedRead tbl 1 = some m1 ∧ m1.seq = 1 ∧ lastWithSeq log 1 = some m1)
      ∧ ((∃ tbl m0 m1, sortLoop log [none, none, none] = some tbl
            ∧ sortedRead tbl 0 = some m0 ∧ sortedRead tbl 1 = some m1) →
          WellFormedLog log) := by
  refine ⟨sortLoop_wellFormed log, ?_⟩
  rintro ⟨tbl, m0, m1, hsort, hr0, hr1⟩
  have hall := sortLoop_in_bounds log [none, none, none] tbl rfl hsort
  rw [sortLoop_slots log none none none hall] at hsort
  simp only [Option.some.injEq] at hsort
  subst hsort
  refine ⟨hall, ?_, ?_⟩
  · cases h0 : lastWithSeq log 0 with
    | none => simp [sortedRead, h0, Option.or] at hr0
    | some m =>
      obtain ⟨hm, hs⟩ := lastWithSeq_some log 0 m h0
      exact ⟨m, hm, hs⟩
  · cases h1 : lastWithSeq log 1 with
    | none => simp [sortedRead, h1, Option.or] at hr1
    | some m =>
      obtain ⟨hm, hs⟩ := lastWithSeq_some log 1 m h1
      exact ⟨m, hm, hs⟩

/-- C20, at an instance: the four messages of the example bag, with `seq` 1, 2, 0, 1. -/
theorem sort_index_safety_witness :
    ∃ tbl m0 m1, sortLoop testLog [none, none, none] = some tbl
      ∧ tbl.length = 3
      ∧ sortedRead tbl 0 = some m0 ∧ m0.seq = 0 ∧ lastWithSeq testLog 0 = some m0
      ∧ sortedRead tbl 1 = some m1 ∧ m1.seq = 1 ∧ lastWithSeq testLog 1 = some m1 :=
  (sort_index_safety testLog).1
    ⟨by decide, ⟨testMsg 0 [7] 0, by decide, by decide⟩,
      ⟨testMsg 1 [] 1, by decide, by decide⟩⟩

end Data_loader
